import Mathlib

/-!
Verification development for `resources/PyQt5LayoutGeneration/layoutGeneration.py`,
the declarative layout builder ("paymate" repository).

The Python module is shallowly embedded below:
- `Lit` / `DVal` model the raw literals the caller passes (`None`, `str`, `dict`)
  and the values that can sit under a dict key (a Qt widget, a list of child
  literals, strings, ints, an opaque `init` callback, an opaque accessor
  function, `None`).
- `Item` models `AutoLayoutItem` / `AutoGridLayoutItem` after `_parse`.
- `PROPERTIES` models the module-level default accessor table; widget behaviour
  (text, checked state, combo index, spin value, ...) is modelled by
  `WidgetState` with value semantics.  Host-supplied accessor functions
  (explicit `get`/`set`/`changed` keys, or attributes the payload object itself
  happens to expose) are kept opaque.
- The recursive build (`AutoLayout._populate` / `add_item` and the subclass
  overrides) is modelled by the fuel-indexed interpreter `run`; fuel is only a
  termination device, every recursion in the source is depth-first and finite.
  `run` also emits a trace of `Event`s (accessor resolution, attachment, `init`
  invocation) so that ordering claims can be stated.
- The bulk accessors `AutoLayout.get_` / `AutoLayout.set_` are modelled by
  `getAll` / `setAll` over the merged name registry.

Python exceptions are modelled by the `Err` type; comments at each constructor
name the Python exception class it stands for.
-/


/-- Qt widget classes that occur in the module (the `PROPERTIES` table plus the
classes used by the builder itself).  `otherW` stands for an arbitrary further
`QWidget` subclass not present in the table. -/
inductive WidgetKind where
  | qLabel
  | qLineEdit
  | qPlainTextEdit
  | qRadioButton
  | qCheckBox
  | qComboBox
  | qListWidget
  | qSpinBox
  | qDoubleSpinBox
  | qPushButton
  | otherW (name : String)
deriving DecidableEq, Repr

/-- Observable state of a widget, with value semantics.  Each widget kind uses
the fields relevant to it: text widgets use `text`, checkable buttons use
`checked`, `QComboBox` uses `items`/`currentIndex`, `QListWidget` uses
`items`/`currentItem` (the text of the current `QListWidgetItem`, if any),
spin boxes use the integer/rational value and range fields.  `extraAttrs`
records attribute names the payload object happens to expose beyond its class
API (Python objects can carry arbitrary attributes); it is what
`hasattr(item.item, 'get')` etc. consult. -/
structure WidgetState where
  text : String := ""
  checked : Bool := false
  items : List String := []
  currentIndex : Int := -1
  currentItem : Option String := none
  intValue : Int := 0
  intMin : Int := 0
  intMax : Int := 99
  ratValue : ℚ := 0
  ratMin : ℚ := 0
  ratMax : ℚ := 99
  extraAttrs : List String := []
deriving DecidableEq, Repr

/-- Runtime values flowing through the accessor triples: strings, bools, ints,
floats (modelled as rationals), a `QListWidgetItem` object (identified by its
text), a dict of named values (what `AutoLayout.get_` returns for a nested
layout), an opaque result of a host-supplied accessor, and `None`. -/
inductive Val where
  | vStr (s : String)
  | vBool (b : Bool)
  | vInt (n : Int)
  | vRat (q : ℚ)
  | vListItem (text : String)
  | vDict (entries : List (String × Val))
  | vExt
  | vNone
deriving Repr

/-- Python exceptions raised by the module.  Each constructor notes the Python
exception class it models. -/
inductive Err where
  /-- `ValueError` (the "Must have exactly one key in all caps" shape error,
  called `InvalidShape` by the spec). -/
  | valueErr (msg : String)
  /-- `ValueError` raised by `validate_item` for a present-but-wrong-typed
  attribute (the spec's `AttributeTypeError`): attribute name, owning layout
  class, expected type, actual type. -/
  | attributeTypeErr (attr cls expected actual : String)
  /-- `ValueError` raised by `_populate` when a registered name collides with
  an existing attribute of the layout object. -/
  | attrExists (name : String)
  /-- `DuplicateNameError` (subclass of `Exception`), naming the key. -/
  | duplicateName (name : String)
  /-- `TypeError`; for the unsupported-literal case the message names the
  offending runtime type. -/
  | typeErr (msg : String)
  /-- `AttributeError`, naming the missing attribute. -/
  | attributeErr (attr : String)
  /-- `KeyError`. -/
  | keyErr (k : String)
  /-- `IndexError` (e.g. `findItems(...)[0]` on an empty result). -/
  | indexErr (msg : String)
  /-- Out of fuel: a model artefact, never raised by any run with enough
  fuel. -/
  | fuelOut
deriving DecidableEq, Repr

mutual
/-- A raw literal handed to a layout constructor: `None`, a bare string, a
dict, or (representative of every other Python runtime type, which the module
rejects) an int. -/
inductive Lit where
  | nullL
  | strL (s : String)
  | dictL (entries : List (String × DVal))
  | intL (n : Int)

/-- A value stored under a dict key. -/
inductive DVal where
  /-- A Qt widget payload. -/
  | widget (wk : WidgetKind) (st : WidgetState)
  /-- A list of child literals (the payload of the layout kinds). -/
  | lits (ls : List Lit)
  | str (s : String)
  | int (n : Int)
  /-- An opaque host callback (used for `init` and for explicit accessor
  overrides), identified by a tag. -/
  | cb (tag : Nat)
  | noneV
end

/-- Result of parsing one literal: models `AutoLayoutItem` (and, when
`isGrid`, `AutoGridLayoutItem`, which predeclares `row`/`col`/`align`/`label`).
`keys` records the keys present on the originating dict, which is what
`hasattr` consults for attributes beyond the predeclared ones; `rawEntries`
keeps the dict itself for generic `getattr`. -/
structure Item where
  isGrid : Bool := false
  type : String := ""
  item : DVal := .noneV
  name : Option String := none
  init : Option Nat := none
  row : DVal := .noneV
  col : DVal := .noneV
  align : DVal := .noneV
  label : DVal := .noneV
  stretchV : DVal := .noneV
  keys : List String := []
  rawEntries : List (String × DVal) := []

/-- Python `str.lower()` (over the string's characters; `String.toLower`
itself is avoided only because its byte-position recursion does not reduce in
the kernel). -/
def pyLower (s : String) : String :=
  String.mk (s.toList.map Char.toLower)

/-- Python `str.isupper()` (restricted to ASCII letters as the cased
characters): at least one cased character, and every cased character is
upper-case. -/
def pyIsUpper (s : String) : Bool :=
  s.toList.any (fun c => c.isAlpha) && s.toList.all (fun c => !c.isAlpha || c.isUpper)

/-- One step of the `for k, v in item.items(): setattr(self, k, v)` loop in
`AutoLayoutItem._parse`.  Keys the parser itself consumes are stored in the
corresponding `Item` field; every key is also recorded in `keys`/`rawEntries`
by `parseLit`.  (Setting `name`/`init`/`type` to a value of an unexpected
runtime type is outside the modelled domain.) -/
def applyEntry (it : Item) (kv : String × DVal) : Item :=
  match kv.1, kv.2 with
  | "name", .str s => { it with name := some s }
  | "name", .noneV => { it with name := none }
  | "init", .cb t => { it with init := some t }
  | "init", .noneV => { it with init := none }
  | "type", .str s => { it with type := s }
  | "item", v => { it with item := v }
  | "row", v => { it with row := v }
  | "col", v => { it with col := v }
  | "align", v => { it with align := v }
  | "label", v => { it with label := v }
  | "stretch", v => { it with stretchV := v }
  | _, _ => it

/-- `AutoLayoutItem._parse` (with `isGrid = true` for `AutoGridLayoutItem`):
`None` becomes a stretch, a bare string becomes a `QLabel` widget item, a dict
must have exactly one all-caps key (its lower-casing becomes the item type and
its value the payload; all other keys are set as attributes), and any other
runtime type raises `TypeError` naming that type. -/
def parseLit (isGrid : Bool) (l : Lit) : Except Err Item :=
  match l with
  | .nullL => .ok { isGrid := isGrid, type := "stretch" }
  | .strL s => .ok { isGrid := isGrid, type := "widget", item := .widget .qLabel { text := s } }
  | .dictL entries =>
    match entries.filter (fun kv => pyIsUpper kv.1) with
    | [kv] =>
      let base : Item :=
        { isGrid := isGrid, type := pyLower kv.1, item := kv.2,
          keys := entries.map Prod.fst, rawEntries := entries }
      .ok (entries.foldl applyEntry base)
    | _ => .error (.valueErr "Must have exactly one key in all caps for item type")
  | .intL _ => .error (.typeErr "int")

/-- The list comprehension `[item_type(item) for item in items]`: parses each
literal in order, aborting at the first exception. -/
def parseAll (isGrid : Bool) : List Lit → Except Err (List Item)
  | [] => .ok []
  | l :: rest => do
    let it ← parseLit isGrid l
    let its ← parseAll isGrid rest
    .ok (it :: its)

/-- `hasattr` on a parsed item: predeclared instance attributes
(`type`/`item`/`name`/`init`, plus `row`/`col`/`align`/`label` on grid items)
or any key of the originating dict. -/
def hasattrI (it : Item) (k : String) : Bool :=
  it.keys.contains k
    || ["type", "item", "name", "init"].contains k
    || (it.isGrid && ["row", "col", "align", "label"].contains k)

/-- `getattr` on a parsed item, as a partial map (`none` models an
`AttributeError`). -/
def getattrI (it : Item) (k : String) : Option DVal :=
  match k with
  | "type" => some (.str it.type)
  | "item" => some it.item
  | "name" => some (match it.name with | some s => .str s | none => .noneV)
  | "init" => some (match it.init with | some t => .cb t | none => .noneV)
  | "row" => if it.isGrid || it.keys.contains "row" then some it.row else none
  | "col" => if it.isGrid || it.keys.contains "col" then some it.col else none
  | "align" => if it.isGrid || it.keys.contains "align" then some it.align else none
  | "label" => if it.isGrid || it.keys.contains "label" then some it.label else none
  | "stretch" => if it.keys.contains "stretch" then some it.stretchV else none
  | _ =>
    if it.keys.contains k then
      some ((it.rawEntries.find? (fun kv => kv.1 == k)).map Prod.snd |>.getD .noneV)
    else none

/-- The runtime types appearing in the `ITEM_ATTRIBUTES` schemas. -/
inductive AttrTy where
  | wdgT
  | listT
  | strT
  | intT
deriving DecidableEq, Repr

def tyName : AttrTy → String
  | .wdgT => "QWidget"
  | .listT => "list"
  | .strT => "str"
  | .intT => "int"

/-- Python `isinstance` against the schema types (every modelled widget class
is a `QWidget` subclass; `None` is an instance of none of them). -/
def isinst (v : DVal) (t : AttrTy) : Bool :=
  match t, v with
  | .wdgT, .widget _ _ => true
  | .listT, .lits _ => true
  | .strT, .str _ => true
  | .intT, .int _ => true
  | _, _ => false

/-- The runtime type name Python would print for a `DVal`. -/
def dvalTyName : DVal → String
  | .widget _ _ => "QWidget"
  | .lits _ => "list"
  | .str _ => "str"
  | .int _ => "int"
  | .cb _ => "function"
  | .noneV => "NoneType"

/-- The module-level `ITEM_ATTRIBUTES` dict of per-kind required-attribute
schemas; `none` models a key absent from the dict (a `KeyError` at lookup). -/
def ITEM_ATTRIBUTES (t : String) : Option (List (String × AttrTy)) :=
  if t = "stretch" then some []
  else if t = "widget" then some [("item", .wdgT)]
  else if t = "vboxlayout" then some [("item", .listT)]
  else if t = "hboxlayout" then some [("item", .listT)]
  else if t = "formlayout" then some [("item", .listT)]
  else if t = "gridlayout" then some [("item", .listT)]
  else if t = "form_element" then some [("label", .strT)]
  else if t = "grid_element" then some [("row", .intT), ("col", .intT)]
  else none

/-- `AutoLayout.validate_item`: for each `(attrName, expectedType)` of the
schema, `getattr(item, attrName)` is fetched — if the attribute is absent this
raises `AttributeError`, which the `except KeyError` clause does NOT catch —
and, when present, its runtime type is checked, raising `ValueError` with the
attribute name, the owning layout class, the expected type and the actual
type. -/
def validate_item (cls : String) (it : Item) (schema : List (String × AttrTy)) :
    Except Err Unit :=
  schema.foldlM
    (fun _ kt =>
      match getattrI it kt.1 with
      | none => .error (.attributeErr kt.1)
      | some v =>
        if isinst v kt.2 then .ok ()
        else .error (.attributeTypeErr kt.1 cls (tyName kt.2) (dvalTyName v)))
    ()

/-- The module-level helper `make_bool`: a string is true exactly when it
equals `'True'`; anything else goes through Python `bool(...)`. -/
def make_bool : Val → Bool
  | .vStr s => s == "True"
  | .vBool b => b
  | .vInt n => n != 0
  | .vRat q => q != 0
  | .vListItem _ => true
  | .vDict entries => entries.length != 0
  | .vExt => true
  | .vNone => false

/-- Python `int(...)` on the values a caller can pass to a spin-box setter
(truncation towards zero for floats; a non-numeric string raises
`ValueError`; non-numeric values raise `TypeError`). -/
def pyInt : Val → Except Err Int
  | .vInt n => .ok n
  | .vBool b => .ok (if b then 1 else 0)
  | .vRat q => .ok (if 0 ≤ q then ⌊q⌋ else -⌊-q⌋)
  | .vStr s =>
    match s.toInt? with
    | some n => .ok n
    | none => .error (.valueErr "invalid literal for int()")
  | _ => .error (.typeErr "int() argument")

/-- Python `float(...)` on the values a caller can pass to a double-spin-box
setter (numeric-string parsing is not modelled). -/
def pyFloat : Val → Except Err ℚ
  | .vRat q => .ok q
  | .vInt n => .ok (n : ℚ)
  | .vBool b => .ok (if b then 1 else 0)
  | _ => .error (.typeErr "float() argument")

/-- `QComboBox.findText`: index of the first item with the given text, `-1`
when absent. -/
def findText (items : List String) (s : String) : Int :=
  match items.findIdx? (fun t => t == s) with
  | some n => (n : Int)
  | none => -1

/-- `QComboBox.currentText`: the item at the current index, `''` when no
valid index is selected. -/
def comboCurrentText (st : WidgetState) : String :=
  match st.currentIndex with
  | .ofNat n => st.items.getD n ""
  | .negSucc _ => ""

/-- Qt clamps `QSpinBox.setValue` into `[minimum, maximum]`. -/
def clampInt (st : WidgetState) (n : Int) : Int :=
  max st.intMin (min st.intMax n)

/-- Qt clamps `QDoubleSpinBox.setValue` into `[minimum, maximum]`. -/
def clampRat (st : WidgetState) (q : ℚ) : ℚ :=
  max st.ratMin (min st.ratMax q)

/-- One entry of the default accessor table: the `get` reader, the `set`
writer (which can raise — e.g. `setText` on a non-string, or
`findItems(...)[0]` on an empty result), and the name of the `changed`
signal. -/
structure PropEntry where
  get : Option (WidgetState → Val)
  set : Option (Val → WidgetState → Except Err WidgetState)
  changed : Option String

/-- The module-level `PROPERTIES` table, entry for entry:

* `QLabel`: `get=QLabel.text`, `set=QLabel.setText` (no `changed`);
* `QLineEdit`: `text` / `setText` / `'textChanged'`;
* `QPlainTextEdit`: `toPlainText` / `setPlainText` / `'textChanged'`;
* `QRadioButton`, `QCheckBox`: `isChecked` / `setChecked(make_bool(value))` /
  `'toggled'`;
* `QComboBox`: `currentText` / `setCurrentIndex(findText(qstr))` /
  `'currentTextChanged'`;
* `QListWidget`: `currentItem` / `setCurrentItem(findItems(qstr,
  MatchExactly)[0])` / `'currentTextChanged'` — note the asymmetry: the getter
  returns the current `QListWidgetItem` object, while the setter takes the
  item's text;
* `QSpinBox`: `value` / `setValue(int(value))` / `'valueChanged'`;
* `QDoubleSpinBox`: `value` / `setValue(float(value))` / `'valueChanged'`.

Classes not in the table map to `none`. -/
def PROPERTIES (wk : WidgetKind) : Option PropEntry :=
  match wk with
  | .qLabel =>
    some ⟨some (fun st => .vStr st.text),
      some (fun v st =>
        match v with
        | .vStr s => .ok { st with text := s }
        | _ => .error (.typeErr "setText")), none⟩
  | .qLineEdit =>
    some ⟨some (fun st => .vStr st.text),
      some (fun v st =>
        match v with
        | .vStr s => .ok { st with text := s }
        | _ => .error (.typeErr "setText")), some "textChanged"⟩
  | .qPlainTextEdit =>
    some ⟨some (fun st => .vStr st.text),
      some (fun v st =>
        match v with
        | .vStr s => .ok { st with text := s }
        | _ => .error (.typeErr "setPlainText")), some "textChanged"⟩
  | .qRadioButton =>
    some ⟨some (fun st => .vBool st.checked),
      some (fun v st => .ok { st with checked := make_bool v }), some "toggled"⟩
  | .qCheckBox =>
    some ⟨some (fun st => .vBool st.checked),
      some (fun v st => .ok { st with checked := make_bool v }), some "toggled"⟩
  | .qComboBox =>
    some ⟨some (fun st => .vStr (comboCurrentText st)),
      some (fun v st =>
        match v with
        | .vStr s => .ok { st with currentIndex := findText st.items s }
        | _ => .error (.typeErr "findText")), some "currentTextChanged"⟩
  | .qListWidget =>
    some ⟨some (fun st =>
        match st.currentItem with
        | some t => .vListItem t
        | none => .vNone),
      some (fun v st =>
        match v with
        | .vStr s =>
          if st.items.contains s then .ok { st with currentItem := some s }
          else .error (.indexErr "findItems")
        | _ => .error (.typeErr "findItems")), some "currentTextChanged"⟩
  | .qSpinBox =>
    some ⟨some (fun st => .vInt st.intValue),
      some (fun v st => do
        let n ← pyInt v
        .ok { st with intValue := clampInt st n }), some "valueChanged"⟩
  | .qDoubleSpinBox =>
    some ⟨some (fun st => .vRat st.ratValue),
      some (fun v st => do
        let q ← pyFloat v
        .ok { st with ratValue := clampRat st q }), some "valueChanged"⟩
  | _ => none

/-- Whether the `PROPERTIES` entry for a widget class supplies the given
accessor kind (`type(item.item) in PROPERTIES and 'get' in
PROPERTIES[type(item.item)]` etc.). -/
def tableHas (akind : String) (wk : WidgetKind) : Bool :=
  match PROPERTIES wk with
  | some e =>
    if akind = "get" then e.get.isSome
    else if akind = "set" then e.set.isSome
    else if akind = "changed" then e.changed.isSome
    else false
  | none => false

/-- Where a resolved accessor came from: an explicit override on the
descriptor dict, an attribute natively exposed by the payload object, or the
default accessor table. -/
inductive Resolved where
  | explicitR
  | nativeR
  | tableR
deriving DecidableEq, Repr

/-- The accessor-resolution chain in `AutoLayout.add_item` for one accessor
kind (`"get"`, `"set"` or `"changed"`), first match wins:
`hasattr(item, kind)`, then `hasattr(item.item, kind)`, then the
`PROPERTIES` table; otherwise nothing is attached. -/
def resolveAcc (akind : String) (it : Item) (wk : WidgetKind) (st : WidgetState) :
    Option Resolved :=
  if hasattrI it akind then some .explicitR
  else if st.extraAttrs.contains akind then some .nativeR
  else if tableHas akind wk then some .tableR
  else none

/-- A value attached to a layout or registered in its name registry: a leaf
widget together with its resolved accessor triple (stored under the fixed
names `get_` / `set_` / `changed_`), a nested auto-layout (its class, its
merged name registry, its attached children), a plain stretch spacer, or a
raw uninterpreted payload (the opaque `'layout'` pass-through and unrecognized
kinds). -/
inductive Node where
  | leafN (wk : WidgetKind) (st : WidgetState)
      (get_ set_ changed_ : Option Resolved)
  | layoutN (cls : String) (names : List (String × Node)) (children : List Node)
  | stretchN
  | rawN (v : DVal)

/-- Construction-time events, used to state ordering properties: accessor
resolution for the item at a path, attachment of a node at a path, and
invocation of an `init` callback (with its tag and the argument it
received). -/
inductive Event where
  | resolvedAcc (path : List Nat)
  | attached (path : List Nat) (n : Node)
  | initCalled (path : List Nat) (tag : Nat) (arg : Node)

/-- The path of an event. -/
def pathOf : Event → List Nat
  | .resolvedAcc p => p
  | .attached p _ => p
  | .initCalled p _ _ => p

/-- The mutable state of one layout object while `_populate` runs: attached
children, the name registry `self.names`, and the event trace so far. -/
structure BSt where
  children : List Node := []
  names : List (String × Node) := []
  trace : List Event := []

/-- `item.item.names` seen through `try ... except AttributeError`: a nested
auto-layout exposes its registry, everything else contributes nothing. -/
def nodeNames : Node → List (String × Node)
  | .layoutN _ ns _ => ns
  | _ => []

/-- The duplicate-checking merge loop at the end of `AutoLayout.add_item`:
for each `(k, v)` of the incoming names, a truthy `k` already present in
`self.names` raises `DuplicateNameError` naming `k`; truthy fresh keys are
appended; falsy keys are dropped. -/
def addNames : List (String × Node) → List (String × Node) →
    Except Err (List (String × Node))
  | acc, [] => .ok acc
  | acc, kv :: rest =>
    if kv.1 = "" then addNames acc rest
    else if (acc.map Prod.fst).contains kv.1 then .error (.duplicateName kv.1)
    else addNames (acc ++ [kv]) rest

/-- Python `'layout' in item.type` (substring containment). -/
def strContains (s pat : String) : Bool :=
  decide (pat.toList <:+: s.toList)

/-- Attributes an `AutoLayout` object already has before names are installed:
the instance attributes set in `__init__` (`layout_items`, `names`,
`item_type`, plus `form` on grid layouts) and the methods defined by
`AutoLayout` itself.  This is a modelled subset: the Qt base classes
contribute many more inherited attributes, so the real `hasattr` check is a
superset of membership here. -/
def predefAttrs (isGrid : Bool) : List String :=
  ["layout_items", "names", "item_type", "add_item", "validate_item",
   "get_", "set_", "addWidget", "addLayout", "addStretch"]
    ++ (if isGrid then ["form"] else [])

/-- The `turn names into attributes` loop at the end of `_populate`: each
truthy registered name that collides with an existing attribute of the layout
raises `ValueError` telling the caller to pick a different name; otherwise
the payload is installed under that name via `setattr`. -/
def attrInstall (isGrid : Bool) : List (String × Node) → Except Err Unit
  | [] => .ok ()
  | kv :: rest =>
    if kv.1 = "" then attrInstall isGrid rest
    else if (predefAttrs isGrid).contains kv.1 then .error (.attrExists kv.1)
    else attrInstall isGrid rest

/-- Which nested auto-layout class a recognized grouping kind constructs:
`(isGrid, form, class name)`. -/
def layoutCtor (t : String) : Option (Bool × Bool × String) :=
  if t = "vboxlayout" then some (false, false, "AutoVBoxLayout")
  else if t = "hboxlayout" then some (false, false, "AutoHBoxLayout")
  else if t = "formlayout" then some (true, true, "AutoFormLayout")
  else if t = "gridlayout" then some (true, false, "AutoGridLayout")
  else none

/-- The `init` invocation and registry merge shared by every `add_item` exit
path other than the `stretch` early return: invoke `item.init` on the (final)
`item.item`, compute the incoming names (`{item.name: item.item}` for a truthy
name, else the payload's own registry when it has one), and merge them with
duplicate detection. -/
def finishAdd (p : List Nat) (it : Item) (n : Node) (st : BSt) : Except Err BSt :=
  let st1 :=
    match it.init with
    | some t => { st with trace := st.trace ++ [Event.initCalled p t n] }
    | none => st
  let newNames :=
    match it.name with
    | some nm => if nm = "" then nodeNames n else [(nm, n)]
    | none => nodeNames n
  match addNames st1.names newNames with
  | .ok ns => .ok { st1 with names := ns }
  | .error e => .error e

/-- Requests to the build interpreter: `pop` runs `_populate` for one layout
(its kind flags, class name, path prefix, raw literals); `items` runs the
per-item loop of `_populate` from item index `i`; `addD` is the
subclass-dispatched `add_item` (grid/form specialisation); `addC` is the core
`AutoLayout.add_item`. -/
inductive Req where
  | pop (isGrid form : Bool) (cls : String) (pre : List Nat) (lits : List Lit)
  | items (isGrid form : Bool) (cls : String) (pre : List Nat) (i : Nat)
      (its : List Item) (st : BSt)
  | addD (isGrid form : Bool) (cls : String) (pre : List Nat) (i : Nat)
      (it : Item) (st : BSt)
  | addC (p : List Nat) (it : Item) (st : BSt)

/-- Responses: a finished layout (node plus its construction trace), or the
updated builder state. -/
inductive Resp where
  | lay (n : Node) (tr : List Event)
  | bst (st : BSt)

/-- `finishAdd` wrapped as an interpreter response. -/
def finishAddR (p : List Nat) (it : Item) (n : Node) (st : BSt) : Except Err Resp :=
  match finishAdd p it n st with
  | .ok st' => .ok (.bst st')
  | .error e => .error e

/-- The build interpreter.  Fuel only bounds the nesting depth (`.error
.fuelOut` is a model artefact); placement geometry (stretch weights, grid
coordinates, alignment flags) is accepted but not tracked, as in §1 of the
spec it is delegated to Qt.

* `pop`: `_populate` — parse all literals (a `TypeError` from the
  comprehension is caught and printed, after which the loop runs over the raw
  arguments and `item.type` on the first raw literal raises
  `AttributeError`); then validate and add each parsed item; finally install
  names as attributes.
* `items`: per-item: look up `ITEM_ATTRIBUTES[item.type]` (an unknown kind is
  a `KeyError`, swallowed), validate, then dispatch to `add_item`.
* `addD`: `AutoBoxLayout.add_item` just forwards; `AutoGridLayout.add_item`
  in form mode validates the `form_element` schema, builds a label item from
  `item.label` and adds it first; in plain grid mode it validates the
  `grid_element` schema.
* `addC`: `AutoLayout.add_item` — stretch returns early (no `init`, no
  registry impact); a widget has its accessor triple resolved and attached,
  then is added; a kind containing `'layout'` either recursively constructs
  the matching auto-layout from the payload list, or (for `'layout'` itself
  and any other kind containing `'layout'`) attaches the raw payload; any
  other kind attaches nothing; then `init` runs and names are merged. -/
def run : Nat → Req → Except Err Resp
  | 0, _ => .error .fuelOut
  | Nat.succ fuel, .pop g f cls pre lits =>
    match parseAll g lits with
    | .error (.typeErr _) => .error (.attributeErr "type")
    | .error e => .error e
    | .ok items =>
      match run fuel (.items g f cls pre 0 items {}) with
      | .ok (.bst st) =>
        match attrInstall g st.names with
        | .ok _ => .ok (.lay (.layoutN cls st.names st.children) st.trace)
        | .error e => .error e
      | .ok _ => .error .fuelOut
      | .error e => .error e
  | Nat.succ fuel, .items g f cls pre i its st =>
    match its with
    | [] => .ok (.bst st)
    | it :: rest =>
      let vres : Except Err Unit :=
        match ITEM_ATTRIBUTES it.type with
        | none => .ok ()
        | some schema => validate_item cls it schema
      match vres with
      | .error e => .error e
      | .ok _ =>
        match run fuel (.addD g f cls pre i it st) with
        | .ok (.bst st') => run fuel (.items g f cls pre (i + 1) rest st')
        | .ok _ => .error .fuelOut
        | .error e => .error e
  | Nat.succ fuel, .addD g f cls pre i it st =>
    if g then
      if f then
        match validate_item cls it ((ITEM_ATTRIBUTES "form_element").getD []) with
        | .error e => .error e
        | .ok _ =>
          match it.label with
          | .str s =>
            match parseLit false (.strL s) with
            | .ok labelItem =>
              match run fuel (.addC (pre ++ [2 * i + 1]) labelItem st) with
              | .ok (.bst st') => run fuel (.addC (pre ++ [2 * i]) it st')
              | .ok _ => .error .fuelOut
              | .error e => .error e
            | .error e => .error e
          | _ => .error (.typeErr "label")
      else
        match validate_item cls it ((ITEM_ATTRIBUTES "grid_element").getD []) with
        | .error e => .error e
        | .ok _ => run fuel (.addC (pre ++ [2 * i]) it st)
    else
      run fuel (.addC (pre ++ [2 * i]) it st)
  | Nat.succ fuel, .addC p it st =>
    if it.type = "stretch" then
      .ok (.bst { st with children := st.children ++ [.stretchN],
                          trace := st.trace ++ [Event.attached p .stretchN] })
    else if it.type = "widget" then
      match it.item with
      | .widget wk wst =>
        let n := Node.leafN wk wst (resolveAcc "get" it wk wst)
          (resolveAcc "set" it wk wst) (resolveAcc "changed" it wk wst)
        finishAddR p it n
          { st with children := st.children ++ [n],
                    trace := st.trace ++ [Event.resolvedAcc p, Event.attached p n] }
      | _ => .error (.typeErr "addWidget")
    else if strContains it.type "layout" then
      match layoutCtor it.type with
      | some (g2, f2, cls2) =>
        match it.item with
        | .lits ls =>
          match run fuel (.pop g2 f2 cls2 p ls) with
          | .ok (.lay n tr) =>
            finishAddR p it n
              { st with children := st.children ++ [n],
                        trace := st.trace ++ tr ++ [Event.attached p n] }
          | .ok _ => .error .fuelOut
          | .error e => .error e
        | _ => .error (.typeErr "argument unpacking")
      | none =>
        let n := Node.rawN it.item
        finishAddR p it n
          { st with children := st.children ++ [n],
                    trace := st.trace ++ [Event.attached p n] }
    else
      finishAddR p it (.rawN it.item) st

/-- `_populate` as seen by a layout constructor: the finished layout node and
its construction trace. -/
def populate (fuel : Nat) (g f : Bool) (cls : String) (pre : List Nat)
    (lits : List Lit) : Except Err (Node × List Event) :=
  match run fuel (.pop g f cls pre lits) with
  | .ok (.lay n tr) => .ok (n, tr)
  | .ok (.bst _) => .error .fuelOut
  | .error e => .error e

/-- `AutoVBoxLayout(*lits)`. -/
def mkAutoVBoxLayout (fuel : Nat) (lits : List Lit) : Except Err (Node × List Event) :=
  populate fuel false false "AutoVBoxLayout" [] lits

/-- `AutoHBoxLayout(*lits)`. -/
def mkAutoHBoxLayout (fuel : Nat) (lits : List Lit) : Except Err (Node × List Event) :=
  populate fuel false false "AutoHBoxLayout" [] lits

/-- `AutoFormLayout(*lits)` (a grid layout with `form=True`). -/
def mkAutoFormLayout (fuel : Nat) (lits : List Lit) : Except Err (Node × List Event) :=
  populate fuel true true "AutoFormLayout" [] lits

/-- `AutoGridLayout(*lits)`. -/
def mkAutoGridLayout (fuel : Nat) (lits : List Lit) : Except Err (Node × List Event) :=
  populate fuel true false "AutoGridLayout" [] lits

/-- `AutoLayout.add_item` on one parsed item, as a state transformer. -/
def add_item (fuel : Nat) (p : List Nat) (it : Item) (st : BSt) : Except Err BSt :=
  match run fuel (.addC p it st) with
  | .ok (.bst st') => .ok st'
  | .ok _ => .error .fuelOut
  | .error e => .error e

/-- Interpretation of a resolved getter on a leaf: a table-resolved getter
reads the widget state through its `PROPERTIES` entry; explicit overrides and
natively exposed attributes are host functions outside the module, so their
result is the opaque `vExt`. -/
def interpGet (wk : WidgetKind) (st : WidgetState) : Resolved → Val
  | .tableR => (((PROPERTIES wk).bind PropEntry.get).map (fun f => f st)).getD .vNone
  | .explicitR => .vExt
  | .nativeR => .vExt

mutual
/-- `element.get_()` for one registry payload, as a partial map: `none` means
the payload has no `get_` attribute (an `AttributeError`, which
`AutoLayout.get_` silently skips).  A nested auto-layout always has the bound
method `get_`, whose result is the dict of its own registry's values. -/
def nodeGetVal : Node → Option Val
  | .leafN wk st g _ _ =>
    match g with
    | none => none
    | some r => some (interpGet wk st r)
  | .layoutN _ names _ => some (.vDict (getAll names))
  | .stretchN => none
  | .rawN _ => none

/-- `AutoLayout.get_`: for every registered name, call the payload's `get_`
and record the result; payloads without one are skipped silently. -/
def getAll : List (String × Node) → List (String × Val)
  | [] => []
  | (k, n) :: rest =>
    match nodeGetVal n with
    | some v => (k, v) :: getAll rest
    | none => getAll rest
end

/-- Whether a registry payload has a `set_` attribute at all. -/
def hasSetter : Node → Bool
  | .leafN _ _ _ s _ => s.isSome
  | .layoutN _ _ _ => true
  | .stretchN => false
  | .rawN _ => false

/-- `element.set_(value)` for one registry payload.  A missing `set_` is an
`AttributeError` (which `AutoLayout.set_` catches).  A table-resolved setter
updates the widget state through its `PROPERTIES` entry and can itself raise
(`TypeError`, `IndexError`, `ValueError` — none of which `AutoLayout.set_`
catches).  Explicit/native setters are opaque host functions: invoking them
succeeds, with effects outside the model.  Calling `set_` positionally on a
nested auto-layout raises `TypeError` (`AutoLayout.set_` accepts keyword
arguments only). -/
def nodeSet : Node → Val → Except Err Node
  | .leafN wk st g s c, v =>
    match s with
    | none => .error (.attributeErr "set_")
    | some .explicitR => .ok (.leafN wk st g (some .explicitR) c)
    | some .nativeR => .ok (.leafN wk st g (some .nativeR) c)
    | some .tableR =>
      match (PROPERTIES wk).bind PropEntry.set with
      | some f =>
        match f v st with
        | .ok st' => .ok (.leafN wk st' g (some .tableR) c)
        | .error e => .error e
      | none => .error (.attributeErr "set_")
  | .layoutN _ _ _, _ => .error (.typeErr "set_() takes 1 positional argument")
  | .stretchN, _ => .error (.attributeErr "set_")
  | .rawN _, _ => .error (.attributeErr "set_")

/-- Replace the payload stored under a name (the model's counterpart of the
in-place mutation a Python setter performs on the shared widget object). -/
def replaceEntry (reg : List (String × Node)) (k : String) (n : Node) :
    List (String × Node) :=
  match reg with
  | [] => []
  | kv :: rest =>
    if kv.1 = k then (k, n) :: rest else kv :: replaceEntry rest k n

/-- One iteration of `AutoLayout.set_`: look the name up (`KeyError` when
absent — caught), call its `set_` (`AttributeError` when missing — caught),
propagate every other exception. -/
def setOne (reg : List (String × Node)) (kv : String × Val) :
    Except Err (List (String × Node)) :=
  match reg.find? (fun e => e.1 == kv.1) with
  | none => .ok reg
  | some (k, n) =>
    match nodeSet n kv.2 with
    | .ok n' => .ok (replaceEntry reg k n')
    | .error (.attributeErr _) => .ok reg
    | .error (.keyErr _) => .ok reg
    | .error e => .error e

/-- `AutoLayout.set_(**values)` over the registry. -/
def setAll (reg : List (String × Node)) (vals : List (String × Val)) :
    Except Err (List (String × Node)) :=
  vals.foldlM setOne reg

/-- Keys of a registry. -/
def keysOf (reg : List (String × Node)) : List String := reg.map Prod.fst

def c2Item : Item :=
  { type := "widget", item := .widget .qLineEdit {}, keys := ["WIDGET"],
    rawEntries := [("WIDGET", .widget .qLineEdit {})] }

def c2StOut : BSt :=
  { children := [.leafN .qLineEdit {} (some .tableR) (some .tableR) (some .tableR)],
    names := [],
    trace := [Event.resolvedAcc [0],
      Event.attached [0] (.leafN .qLineEdit {} (some .tableR) (some .tableR) (some .tableR))] }

def c10ItemA : Item :=
  { type := "foo", item := .widget .qPushButton {}, name := some "x", init := some 0,
    keys := ["FOO", "name", "init"] }

def c10OutA : BSt :=
  { children := [], names := [("x", .rawN (.widget .qPushButton {}))],
    trace := [Event.initCalled [0] 0 (.rawN (.widget .qPushButton {}))] }

def c10ItemB : Item := { type := "mylayout", item := .widget .qPushButton {} }

def c10OutB : BSt :=
  { children := [.rawN (.widget .qPushButton {})], names := [],
    trace := [Event.attached [0] (.rawN (.widget .qPushButton {}))] }

def c8Reg : List (String × Node) :=
  [("a", .leafN .qLineEdit { text := "v" } (some .tableR) none none),
   ("b", .rawN .noneV)]

def c9Leaf : Node := .leafN .qLineEdit {} (some .tableR) (some .tableR) (some .tableR)

/-- Invariant for `run_nodup`: a finished layout has duplicate-free registry
keys, and every state-transforming request preserves duplicate-freedom of
`self.names`. -/
def NodupInv : Req → Resp → Prop
  | .pop _ _ _ _ _, .lay n _ =>
    ∀ cls ns ch, n = .layoutN cls ns ch → (keysOf ns).Nodup
  | .items _ _ _ _ _ _ st, .bst st' =>
    (keysOf st.names).Nodup → (keysOf st'.names).Nodup
  | .addD _ _ _ _ _ _ st, .bst st' =>
    (keysOf st.names).Nodup → (keysOf st'.names).Nodup
  | .addC _ _ st, .bst st' =>
    (keysOf st.names).Nodup → (keysOf st'.names).Nodup
  | _, _ => True

/-- The valid domain of a leaf type in the default accessor table: the values
its table setter accepts and its widget state can represent faithfully
(strings for text widgets, booleans for checkable buttons, an existing item
text for combo/list widgets, in-range numbers for spin boxes).  Types outside
the table have an empty domain. -/
def validDomain (wk : WidgetKind) (st : WidgetState) : Val → Prop :=
  match wk with
  | .qLabel => fun v => ∃ s, v = .vStr s
  | .qLineEdit => fun v => ∃ s, v = .vStr s
  | .qPlainTextEdit => fun v => ∃ s, v = .vStr s
  | .qRadioButton => fun v => ∃ b, v = .vBool b
  | .qCheckBox => fun v => ∃ b, v = .vBool b
  | .qComboBox => fun v => ∃ s, v = .vStr s ∧ s ∈ st.items
  | .qListWidget => fun v => ∃ s, v = .vStr s ∧ s ∈ st.items
  | .qSpinBox => fun v => ∃ m, v = .vInt m ∧ st.intMin ≤ m ∧ m ≤ st.intMax
  | .qDoubleSpinBox => fun v => ∃ q, v = .vRat q ∧ st.ratMin ≤ q ∧ q ≤ st.ratMax
  | _ => fun _ => False

def c3ListLeaf : Node :=
  .leafN .qListWidget { items := ["foo"] } (some .tableR) (some .tableR) (some .tableR)

def c3ListLeafSet : Node :=
  .leafN .qListWidget { items := ["foo"], currentItem := some "foo" }
    (some .tableR) (some .tableR) (some .tableR)

/-- Construction-trace events whose path is exactly `p`. -/
def filterP (tr : List Event) (p : List Nat) : List Event :=
  tr.filter (fun e => pathOf e == p)

/-- The `init` event an `add_item` exit path emits (empty when the item
carries no `init`). -/
def initPart (p : List Nat) (it : Item) (n : Node) : List Event :=
  match it.init with
  | some t => [Event.initCalled p t n]
  | none => []

/-- The possible per-item event patterns at a path `p`: nothing (an
unrecognized kind without `init`), a bare attachment (stretch, nested layout
or raw payload without `init`), resolution then attachment (a widget without
`init`), a bare `init` on an unattached payload (an unrecognized kind with
`init`), and the two attachment patterns followed by `init` — in each of
which the `init` argument is exactly the attached node and `init` comes
last. -/
def ShapeAt (l : List Event) (p : List Nat) : Prop :=
  l = [] ∨
  (∃ n, l = [Event.attached p n]) ∨
  (∃ n, l = [Event.resolvedAcc p, Event.attached p n]) ∨
  (∃ t a, l = [Event.initCalled p t a]) ∨
  (∃ n t, l = [Event.attached p n, Event.initCalled p t n]) ∨
  (∃ n t, l = [Event.resolvedAcc p, Event.attached p n, Event.initCalled p t n])

/-- A trace is shape-correct when its restriction to every path is one of the
per-item patterns. -/
def ShapeOK (tr : List Event) : Prop := ∀ p, ShapeAt (filterP tr p) p

/-- Invariant for `run_trace`: the events a construction step appends to the
trace are scoped below the step's path, restrict to a legal per-item pattern
at every path, and contain the `init` invocation of every non-stretch item
that carries one. -/
def TrInv : Req → Resp → Prop
  | .pop g _ _ pre lits, .lay _ tr =>
      (∀ e ∈ tr, ∃ c rest, pathOf e = pre ++ c :: rest) ∧ ShapeOK tr ∧
      (∀ its, parseAll g lits = .ok its →
        ∀ j it2, its[j]? = some it2 → it2.type ≠ "stretch" →
          ∀ t, it2.init = some t → ∃ a, Event.initCalled (pre ++ [2 * j]) t a ∈ tr)
  | .items _ _ _ pre i its st, .bst st' =>
      ∃ delta, st'.trace = st.trace ++ delta ∧
        (∀ e ∈ delta, ∃ c rest, pathOf e = pre ++ c :: rest ∧ 2 * i ≤ c) ∧
        ShapeOK delta ∧
        (∀ j it2, its[j]? = some it2 → it2.type ≠ "stretch" →
          ∀ t, it2.init = some t →
            ∃ a, Event.initCalled (pre ++ [2 * (i + j)]) t a ∈ delta)
  | .addD _ _ _ pre i it st, .bst st' =>
      ∃ delta, st'.trace = st.trace ++ delta ∧
        (∀ e ∈ delta, ∃ c rest, pathOf e = pre ++ c :: rest ∧
          (c = 2 * i ∨ c = 2 * i + 1)) ∧
        ShapeOK delta ∧
        (it.type ≠ "stretch" → ∀ t, it.init = some t →
          ∃ a, Event.initCalled (pre ++ [2 * i]) t a ∈ delta)
  | .addC p it st, .bst st' =>
      ∃ delta, st'.trace = st.trace ++ delta ∧
        (∀ e ∈ delta, ∃ rest, pathOf e = p ++ rest) ∧
        ShapeOK delta ∧
        (it.type ≠ "stretch" → ∀ t, it.init = some t →
          ∃ a, Event.initCalled p t a ∈ delta)
  | _, _ => True

/-- Whether an event is an attachment. -/
def isAttachEvent : Event → Bool
  | .attached _ _ => true
  | _ => false

def c6Leaf : Node := .leafN .qLineEdit {} (some .tableR) (some .tableR) (some .tableR)

def c6Lits : List Lit := [.dictL [("WIDGET", .widget .qLineEdit {}), ("init", .cb 7)]]

def c6Trace : List Event :=
  [Event.resolvedAcc [0], Event.attached [0] c6Leaf, Event.initCalled [0] 7 c6Leaf]

def c6ItemParsed : Item :=
  { isGrid := false, type := "widget", item := .widget .qLineEdit {}, init := some 7,
    keys := ["WIDGET", "init"],
    rawEntries := [("WIDGET", .widget .qLineEdit {}), ("init", .cb 7)] }

/-! ## Theorems -/

theorem finishAdd_children {p : List Nat} {it : Item} {n : Node} {st st' : BSt}
    (h : finishAdd p it n st = .ok st') : st'.children = st.children := by
  unfold finishAdd at h
  cases hini : it.init <;> simp only [hini] at h <;> split at h <;> simp_all <;>
    subst h <;> rfl

theorem addNames_ok_nodup {acc new res : List (String × Node)}
    (hn : (keysOf acc).Nodup) (h : addNames acc new = .ok res) :
    (keysOf res).Nodup := by
  induction new generalizing acc with
  | nil =>
    simp only [addNames] at h
    cases h
    exact hn
  | cons kv rest ih =>
    simp only [addNames] at h
    split at h
    · exact ih hn h
    · split at h
      · cases h
      · rename_i hne hcon
        refine ih ?_ h
        simp only [keysOf, List.map_append, List.map_cons, List.map_nil]
        rw [List.nodup_append]
        refine ⟨hn, List.nodup_singleton _, ?_⟩
        rw [List.disjoint_singleton]
        simpa [keysOf] using hcon

theorem finishAdd_nodup {p : List Nat} {it : Item} {n : Node} {st st' : BSt}
    (hn : (keysOf st.names).Nodup) (h : finishAdd p it n st = .ok st') :
    (keysOf st'.names).Nodup := by
  unfold finishAdd at h
  cases hini : it.init <;> simp only [hini] at h <;> split at h <;> simp_all <;>
    subst h <;> exact addNames_ok_nodup hn (by assumption)

theorem finishAdd_trace {p : List Nat} {it : Item} {n : Node} {st st' : BSt}
    (h : finishAdd p it n st = .ok st') :
    st'.trace = st.trace ++
      (match it.init with
        | some t => [Event.initCalled p t n]
        | none => []) := by
  unfold finishAdd at h
  cases hini : it.init <;> simp only [hini] at h <;> split at h <;> simp_all <;>
    subst h <;> rfl

/-- C7: a record literal whose set of fully-upper-case keys has size zero or
two-or-more always parses to the `InvalidShape` `ValueError`; a record with
exactly one fully-upper-case key never fails for this reason (its parse
succeeds outright); and, at nesting depth two, the same error aborts the
enclosing build (the `ValueError`, unlike a `TypeError`, is not caught by
`_populate`). -/
theorem c7_shape_validation :
    (∀ (g : Bool) (entries : List (String × DVal)),
      (entries.filter (fun kv => pyIsUpper kv.1)).length ≠ 1 →
        parseLit g (.dictL entries) =
          .error (.valueErr "Must have exactly one key in all caps for item type")) ∧
    (∀ (g : Bool) (entries : List (String × DVal)),
      (entries.filter (fun kv => pyIsUpper kv.1)).length = 1 →
        (parseLit g (.dictL entries)).isOk = true) ∧
    populate 9 false false "AutoVBoxLayout" []
      [.dictL [("VBOXLAYOUT", .lits [.dictL [("A", .noneV), ("B", .noneV)]])]] =
      .error (.valueErr "Must have exactly one key in all caps for item type") := by
  refine ⟨?_, ?_, rfl⟩
  · intro g entries hlen
    cases hf : entries.filter (fun kv => pyIsUpper kv.1) with
    | nil => simp [parseLit, hf]
    | cons a t =>
      cases t with
      | nil => exact absurd (by rw [hf]; rfl) hlen
      | cons b t2 => simp [parseLit, hf]
  · intro g entries hlen
    rcases List.length_eq_one.mp hlen with ⟨a, ha⟩
    simp [parseLit, ha, Except.isOk, Except.toBool]

/-- Witness for C7 at concrete inputs: a record with no all-caps key fails
with the shape error, a record with exactly one all-caps key parses. -/
theorem c7_shape_validation_witness :
    parseLit false (.dictL [("a", .noneV)]) =
      .error (.valueErr "Must have exactly one key in all caps for item type") ∧
    (parseLit false (.dictL [("WIDGET", .widget .qLineEdit {})])).isOk = true :=
  ⟨c7_shape_validation.1 false _ (by decide),
   c7_shape_validation.2.1 false _ (by decide)⟩

/-- C4 (code bug in `validate_item`): a required attribute that is absent
from the descriptor is NOT swallowed: `getattr` raises `AttributeError`,
which the `except KeyError` clause cannot catch (first conjunct, the
validator called directly as in its contract).  In the builder's own flow a
"missing" grid attribute is predeclared as `None` and therefore raises the
wrong-type `ValueError` instead (second conjunct: a form item without a
`label`).  The wrong-type half of the claim does hold: a present attribute of
the wrong runtime type raises the `ValueError` naming the attribute, the
owning class, the expected and the actual type (third conjunct).  The
`AttributeError` is also reachable inside a real build: a `FORM_ELEMENT`
record in a box layout is validated against the `{label: str}` schema on a
plain item, which has no `label` attribute at all (fourth conjunct). -/
theorem c4_missing_attribute_not_swallowed :
    validate_item "AutoLayout"
      ((parseLit false (.dictL [("WIDGET", .widget .qLineEdit {})])).toOption.getD {})
      [("label", .strT)] = .error (.attributeErr "label") ∧
    populate 9 true true "AutoFormLayout" []
      [.dictL [("WIDGET", .widget .qLineEdit {})]] =
      .error (.attributeTypeErr "label" "AutoFormLayout" "str" "NoneType") ∧
    validate_item "AutoVBoxLayout"
      { type := "widget", item := .str "x", keys := ["WIDGET"] }
      [("item", .wdgT)] =
      .error (.attributeTypeErr "item" "AutoVBoxLayout" "QWidget" "str") ∧
    populate 9 false false "AutoVBoxLayout" []
      [.dictL [("FORM_ELEMENT", .widget .qLineEdit {})]] =
      .error (.attributeErr "label") :=
  ⟨rfl, rfl, rfl, rfl⟩

/-- C5 counterexample: for the unsupported literal `5`, parsing does raise
`TypeError` naming the type — but the enclosing build call does NOT fail with
it: `_populate` catches and prints the `TypeError`, and construction instead
aborts with `AttributeError` when the raw argument reaches
`ITEM_ATTRIBUTES[item.type]`.  So the error is recovered internally and the
build's failure is a different exception than the claim states. -/
theorem c5_counterexample_unsupported_literal :
    parseLit false (.intL 5) = .error (.typeErr "int") ∧
    populate 9 false false "AutoVBoxLayout" [] [.intL 5] = .error (.attributeErr "type") ∧
    (Except.error (Err.attributeErr "type") : Except Err (Node × List Event)) ≠
      .error (.typeErr "int") :=
  ⟨rfl, rfl, by simp⟩

/-- C5 amended: parsing a literal that is neither `None`, a string nor a dict
raises `TypeError` naming the offending runtime type, but `_populate` catches
(and prints) that `TypeError`; the raw arguments then flow on and the first of
them, having no `type` attribute, raises `AttributeError` — so no composite is
returned, yet the original error is recovered internally and replaced. -/
theorem c5_amended_typeerror_recovered :
    (∀ (g : Bool) (n : Int), parseLit g (.intL n) = .error (.typeErr "int")) ∧
    (∀ (fuel : Nat) (g f : Bool) (cls : String) (pre : List Nat) (lits : List Lit)
      (t : String),
      parseAll g lits = .error (.typeErr t) →
        populate (fuel + 1) g f cls pre lits = .error (.attributeErr "type")) := by
  constructor
  · intro g n; rfl
  · intro fuel g f cls pre lits t h
    simp [populate, run, h]

/-- Witness for C5 amended at the concrete literal `5`. -/
theorem c5_amended_typeerror_recovered_witness :
    parseAll false [Lit.intL 5] = .error (.typeErr "int") ∧
    populate 9 false false "AutoVBoxLayout" [] [Lit.intL 5] = .error (.attributeErr "type") :=
  ⟨rfl, c5_amended_typeerror_recovered.2 8 false false "AutoVBoxLayout" [] [Lit.intL 5] "int" rfl⟩

theorem finishAddR_bst {p : List Nat} {it : Item} {n : Node} {st : BSt} {out : Resp}
    (h : finishAddR p it n st = .ok out) :
    ∃ st', out = .bst st' ∧ finishAdd p it n st = .ok st' := by
  unfold finishAddR at h
  split at h
  · rename_i heq; cases h; exact ⟨_, rfl, heq⟩
  · cases h

theorem add_item_run_eq {fuel : Nat} {p : List Nat} {it : Item} {st st' : BSt}
    (h : add_item fuel p it st = .ok st') :
    run fuel (.addC p it st) = .ok (.bst st') := by
  unfold add_item at h
  split at h
  · rename_i heq; cases h; exact heq
  · cases h
  · cases h

theorem run_addC_widget {fuel : Nat} {p : List Nat} {it : Item} {wk : WidgetKind}
    {wst : WidgetState} {st : BSt}
    (hty : it.type = "widget") (hit : it.item = .widget wk wst) :
    run (fuel + 1) (.addC p it st) =
      finishAddR p it
        (Node.leafN wk wst (resolveAcc "get" it wk wst) (resolveAcc "set" it wk wst)
          (resolveAcc "changed" it wk wst))
        { st with
          children := st.children ++
            [Node.leafN wk wst (resolveAcc "get" it wk wst) (resolveAcc "set" it wk wst)
              (resolveAcc "changed" it wk wst)],
          trace := st.trace ++
            [Event.resolvedAcc p,
             Event.attached p
               (Node.leafN wk wst (resolveAcc "get" it wk wst)
                 (resolveAcc "set" it wk wst) (resolveAcc "changed" it wk wst))] } := by
  show run (Nat.succ fuel) (.addC p it st) = _
  rw [run, hty, hit]
  simp

/-- C2: accessor resolution follows the fixed precedence chain, first match
wins, independently per accessor kind: (1) an accessor key explicitly
supplied on the descriptor dict, else (2) a matching attribute natively
exposed by the payload object, else (3) the `PROPERTIES` entry for the
payload's concrete type (when that entry carries the kind), else (4) nothing
is attached.  The final conjunct ties the resolution to `add_item`: the
attached leaf stores the resolved triple under the fixed field names `get_`,
`set_`, `changed_` (the named arguments of `Node.leafN`). -/
theorem c2_accessor_resolution_precedence
    (akind : String) (it : Item) (wk : WidgetKind) (wst : WidgetState) :
    (hasattrI it akind = true → resolveAcc akind it wk wst = some .explicitR) ∧
    (hasattrI it akind = false → wst.extraAttrs.contains akind = true →
      resolveAcc akind it wk wst = some .nativeR) ∧
    (hasattrI it akind = false → wst.extraAttrs.contains akind = false →
      tableHas akind wk = true → resolveAcc akind it wk wst = some .tableR) ∧
    (hasattrI it akind = false → wst.extraAttrs.contains akind = false →
      tableHas akind wk = false → resolveAcc akind it wk wst = none) ∧
    (∀ (fuel : Nat) (p : List Nat) (st st' : BSt),
      it.type = "widget" → it.item = .widget wk wst →
      add_item (fuel + 1) p it st = .ok st' →
        st'.children = st.children ++
          [Node.leafN wk wst (resolveAcc "get" it wk wst) (resolveAcc "set" it wk wst)
            (resolveAcc "changed" it wk wst)]) := by
  refine ⟨?_, ?_, ?_, ?_, ?_⟩
  · intro h; simp [resolveAcc, h]
  · intro h1 h2; simp at h2; simp [resolveAcc, h1, h2]
  · intro h1 h2 h3; simp at h2; simp [resolveAcc, h1, h2, h3]
  · intro h1 h2 h3; simp at h2; simp [resolveAcc, h1, h2, h3]
  · intro fuel p st st' hty hit h
    have hr := add_item_run_eq h
    rw [run_addC_widget hty hit] at hr
    obtain ⟨st2, hout, heq⟩ := finishAddR_bst hr
    cases hout
    exact finishAdd_children heq

/-- Witness for C2 at concrete inputs: each of the four precedence levels
observed, plus a concrete `add_item` attaching the resolved triple. -/
theorem c2_accessor_resolution_precedence_witness :
    resolveAcc "get" { type := "widget", keys := ["WIDGET", "get"] } .qLineEdit {} =
      some .explicitR ∧
    resolveAcc "set" { type := "widget" } .qPushButton { extraAttrs := ["set"] } =
      some .nativeR ∧
    resolveAcc "changed" c2Item .qLineEdit {} = some .tableR ∧
    resolveAcc "changed" { type := "widget" } .qLabel {} = none ∧
    c2StOut.children = BSt.children {} ++
      [Node.leafN .qLineEdit {} (resolveAcc "get" c2Item .qLineEdit {})
        (resolveAcc "set" c2Item .qLineEdit {})
        (resolveAcc "changed" c2Item .qLineEdit {})] :=
  ⟨(c2_accessor_resolution_precedence "get"
      { type := "widget", keys := ["WIDGET", "get"] } .qLineEdit {}).1 (by decide),
   (c2_accessor_resolution_precedence "set"
      { type := "widget" } .qPushButton { extraAttrs := ["set"] }).2.1 (by decide) (by decide),
   (c2_accessor_resolution_precedence "changed" c2Item .qLineEdit {}).2.2.1
      (by decide) (by decide) (by decide),
   (c2_accessor_resolution_precedence "changed"
      { type := "widget" } .qLabel {}).2.2.2.1 (by decide) (by decide) (by decide),
   (c2_accessor_resolution_precedence "get" c2Item .qLineEdit {}).2.2.2.2
      8 [0] {} c2StOut rfl rfl rfl⟩

theorem finishAdd_named {p : List Nat} {it : Item} {n : Node} {st st' : BSt} {nm : String}
    (hnm : it.name = some nm) (hne : nm ≠ "")
    (hmem : (keysOf st.names).contains nm = false)
    (h : finishAdd p it n st = .ok st') :
    st'.names = st.names ++ [(nm, n)] := by
  unfold finishAdd at h
  simp only [keysOf] at hmem
  cases hini : it.init <;>
    simp only [hini, hnm, addNames, if_neg hne, hmem] at h <;>
    simp only [Bool.false_eq_true, if_false, addNames] at h <;>
    cases h <;> rfl

/-- C10: a record kind that is not `stretch`, not `widget` and does not
contain the substring `layout` is accepted without error, but its payload is
never attached (children unchanged); its `init` callback is still invoked on
the unattached payload, and a truthy fresh `name` is still entered into the
registry bound to that unattached payload.  Conversely a kind that merely
contains `layout` without being one of the four recognized grouping kinds is
attached via the `addLayout` path with its raw payload uninterpreted. -/
theorem c10_unrecognized_kind_dispatch :
    (∀ (fuel : Nat) (p : List Nat) (it : Item) (st st' : BSt),
      it.type ≠ "stretch" → it.type ≠ "widget" → strContains it.type "layout" = false →
      add_item (fuel + 1) p it st = .ok st' →
        st'.children = st.children ∧
        (∀ t, it.init = some t →
          st'.trace = st.trace ++ [Event.initCalled p t (.rawN it.item)]) ∧
        (∀ nm, it.name = some nm → nm ≠ "" →
          (keysOf st.names).contains nm = false →
          st'.names = st.names ++ [(nm, .rawN it.item)])) ∧
    (∀ (fuel : Nat) (p : List Nat) (it : Item) (st st' : BSt),
      it.type ≠ "stretch" → it.type ≠ "widget" → it.type ≠ "layout" →
      strContains it.type "layout" = true → layoutCtor it.type = none →
      add_item (fuel + 1) p it st = .ok st' →
        st'.children = st.children ++ [.rawN it.item]) := by
  constructor
  · intro fuel p it st st' h1 h2 h3 h
    have hr := add_item_run_eq h
    rw [show (fuel + 1) = Nat.succ fuel from rfl, run] at hr
    rw [if_neg h1, if_neg h2, if_neg (by simp [h3])] at hr
    obtain ⟨st2, hout, heq⟩ := finishAddR_bst hr
    cases hout
    refine ⟨finishAdd_children heq, ?_, ?_⟩
    · intro t ht
      have := finishAdd_trace heq
      simpa [ht] using this
    · intro nm hnm hne hmem
      exact finishAdd_named hnm hne hmem heq
  · intro fuel p it st st' h1 h2 h3 h4 h5 h
    have hr := add_item_run_eq h
    rw [show (fuel + 1) = Nat.succ fuel from rfl, run] at hr
    rw [if_neg h1, if_neg h2, if_pos (by simp [h4])] at hr
    simp only [h5] at hr
    obtain ⟨st2, hout, heq⟩ := finishAddR_bst hr
    cases hout
    exact finishAdd_children heq

/-- Witness for C10 at concrete inputs: kind `foo` (unattached, `init` still
runs, name still registered to the unattached payload) and kind `mylayout`
(attached raw via the layout path). -/
theorem c10_unrecognized_kind_dispatch_witness :
    c10OutA.children = ([] : List Node) ∧
    c10OutA.trace = [] ++ [Event.initCalled [0] 0 (.rawN (.widget .qPushButton {}))] ∧
    c10OutA.names = [] ++ [("x", Node.rawN (.widget .qPushButton {}))] ∧
    c10OutB.children = [] ++ [Node.rawN (.widget .qPushButton {})] := by
  obtain ⟨ha, hb, hc⟩ := c10_unrecognized_kind_dispatch.1 8 [0] c10ItemA {} c10OutA
    (by decide) (by decide) (by decide) rfl
  refine ⟨ha, hb 0 rfl, hc "x" rfl (by decide) rfl, ?_⟩
  exact c10_unrecognized_kind_dispatch.2 8 [0] c10ItemB {} c10OutB
    (by decide) (by decide) (by decide) (by decide) (by decide) rfl

theorem getAll_lookup_not_mem {reg : List (String × Node)} {name : String}
    (h : name ∉ keysOf reg) : (getAll reg).lookup name = none := by
  induction reg with
  | nil => rfl
  | cons kn rest ih =>
    simp only [keysOf, List.map_cons, List.mem_cons, not_or] at h
    obtain ⟨h1, h2⟩ := h
    have hb : (name == kn.1) = false := beq_eq_false_iff_ne.mpr h1
    rw [getAll]
    cases hget : nodeGetVal kn.2 with
    | some v =>
      simp only [List.lookup, hb]
      exact ih h2
    | none => exact ih h2

theorem getAll_lookup {reg : List (String × Node)} {name : String}
    (hn : (keysOf reg).Nodup) :
    (getAll reg).lookup name = (reg.lookup name).bind nodeGetVal := by
  induction reg with
  | nil => rfl
  | cons kn rest ih =>
    obtain ⟨k, n⟩ := kn
    simp only [keysOf, List.map_cons, List.nodup_cons] at hn
    obtain ⟨hk, hrest⟩ := hn
    by_cases he : name = k
    · subst he
      rw [getAll]
      cases hget : nodeGetVal n with
      | some v => simp [List.lookup, hget]
      | none =>
        rw [getAll_lookup_not_mem (by simpa [keysOf] using hk)]
        simp [List.lookup, hget]
    · have hb : (name == k) = false := beq_eq_false_iff_ne.mpr he
      rw [getAll]
      cases hget : nodeGetVal n with
      | some v =>
        simp only [List.lookup, hb]
        exact ih hrest
      | none =>
        simp only [List.lookup, hb]
        exact ih hrest

/-- C8: the bulk accessors are total over their input and never raise for a
single missing or unsettable name.  (1) `get_` returns, for every registered
name (registry keys are unique for built layouts), the resolved getter's
result, and omits — no error, no entry — every name whose payload has no
`get_`; it returns a plain list, so it cannot raise for a missing getter by
construction.  (2) a payload with no `set_` raises `AttributeError`, which
(3)–(4) `set_` swallows, leaving the registry unchanged, exactly as it
swallows a name absent from the registry (`KeyError`); (5) when a setter is
resolved it is invoked with the supplied value; (6) `set_` processes every
supplied pair in order. -/
theorem c8_bulk_accessors_total :
    (∀ (reg : List (String × Node)) (name : String),
      (keysOf reg).Nodup →
        (getAll reg).lookup name = (reg.lookup name).bind nodeGetVal) ∧
    (∀ (n : Node) (v : Val), hasSetter n = false →
      nodeSet n v = .error (.attributeErr "set_")) ∧
    (∀ (reg : List (String × Node)) (name : String) (v : Val),
      reg.find? (fun e => e.1 == name) = none → setOne reg (name, v) = .ok reg) ∧
    (∀ (reg : List (String × Node)) (name : String) (v : Val) (k : String) (n : Node),
      reg.find? (fun e => e.1 == name) = some (k, n) →
      nodeSet n v = .error (.attributeErr "set_") → setOne reg (name, v) = .ok reg) ∧
    (∀ (reg : List (String × Node)) (name : String) (v : Val) (k : String) (n n' : Node),
      reg.find? (fun e => e.1 == name) = some (k, n) →
      nodeSet n v = .ok n' → setOne reg (name, v) = .ok (replaceEntry reg k n')) ∧
    (∀ (reg : List (String × Node)) (vals : List (String × Val)),
      setAll reg vals = vals.foldlM setOne reg) := by
  refine ⟨fun reg name hn => getAll_lookup hn, ?_, ?_, ?_, ?_, fun _ _ => rfl⟩
  · intro n v hs
    cases n with
    | leafN wk st g s c =>
      cases s with
      | none => rfl
      | some r => simp [hasSetter] at hs
    | layoutN cls ns ch => simp [hasSetter] at hs
    | stretchN => rfl
    | rawN dv => rfl
  · intro reg name v h
    simp [setOne, h]
  · intro reg name v k n h1 h2
    simp [setOne, h1, h2]
  · intro reg name v k n n' h1 h2
    simp [setOne, h1, h2]

/-- Witness for C8 at concrete inputs: a two-entry registry (a line edit with
a resolved getter but no setter, and a raw payload with neither). -/
theorem c8_bulk_accessors_total_witness :
    (getAll c8Reg).lookup "a" = (c8Reg.lookup "a").bind nodeGetVal ∧
    nodeSet (.rawN .noneV) .vNone = .error (.attributeErr "set_") ∧
    setOne c8Reg ("zzz", .vStr "w") = .ok c8Reg ∧
    setOne c8Reg ("a", .vStr "w") = .ok c8Reg ∧
    setOne [("y", .leafN .qLineEdit {} none (some .tableR) none)] ("y", .vStr "w") =
      .ok (replaceEntry [("y", .leafN .qLineEdit {} none (some .tableR) none)] "y"
        (.leafN .qLineEdit { text := "w" } none (some .tableR) none)) :=
  ⟨c8_bulk_accessors_total.1 c8Reg "a" (by decide),
   c8_bulk_accessors_total.2.1 (.rawN .noneV) .vNone rfl,
   c8_bulk_accessors_total.2.2.1 c8Reg "zzz" (.vStr "w") rfl,
   c8_bulk_accessors_total.2.2.2.1 c8Reg "a" (.vStr "w") "a"
     (.leafN .qLineEdit { text := "v" } (some .tableR) none none) rfl rfl,
   c8_bulk_accessors_total.2.2.2.2.1 _ "y" (.vStr "w") "y"
     (.leafN .qLineEdit {} none (some .tableR) none)
     (.leafN .qLineEdit { text := "w" } none (some .tableR) none) rfl rfl⟩

theorem attrInstall_ok_not_predef {g : Bool} {names : List (String × Node)}
    (h : attrInstall g names = .ok ()) :
    ∀ kv ∈ names, kv.1 ≠ "" → (predefAttrs g).contains kv.1 = false := by
  induction names with
  | nil => intro kv hm; cases hm
  | cons kv rest ih =>
    intro kv2 hm hne
    rw [attrInstall] at h
    by_cases h1 : kv.1 = ""
    · rw [if_pos h1] at h
      rcases List.mem_cons.mp hm with he | hm2
      · subst he; exact absurd h1 hne
      · exact ih h kv2 hm2 hne
    · rw [if_neg h1] at h
      by_cases h2 : (predefAttrs g).contains kv.1 = true
      · rw [if_pos h2] at h; cases h
      · rw [if_neg h2] at h
        rcases List.mem_cons.mp hm with he | hm2
        · subst he; simpa using h2
        · exact ih h kv2 hm2 hne

theorem populate_ok_parts {fuel : Nat} {g f : Bool} {cls : String} {pre : List Nat}
    {lits : List Lit} {n : Node} {tr : List Event}
    (h : populate (fuel + 1) g f cls pre lits = .ok (n, tr)) :
    ∃ items st, parseAll g lits = .ok items ∧
      run fuel (.items g f cls pre 0 items {}) = .ok (.bst st) ∧
      attrInstall g st.names = .ok () ∧
      n = .layoutN cls st.names st.children ∧ tr = st.trace := by
  unfold populate at h
  rw [show (fuel + 1) = Nat.succ fuel from rfl, run] at h
  cases hp : parseAll g lits with
  | error e => rw [hp] at h; cases e <;> simp at h
  | ok items =>
    simp only [hp] at h
    cases hr : run fuel (.items g f cls pre 0 items {}) with
    | error e => simp only [hr] at h; simp at h
    | ok r =>
      simp only [hr] at h
      cases r with
      | lay n2 tr2 => simp at h
      | bst st =>
        cases hai : attrInstall g st.names with
        | error e => simp only [hai] at h; simp at h
        | ok u =>
          cases u
          simp only [hai] at h
          simp only [Except.ok.injEq, Prod.mk.injEq] at h
          exact ⟨items, st, rfl, hr, hai, h.1.symm, h.2.symm⟩

/-- C9 (implicit): after a successful build every truthy registered name is
installed as a Python attribute on the composite itself (so, in particular,
no registered name can coincide with a pre-existing attribute such as
`names`, `item_type`, `get_`, `set_`, `form` or a method name — first
conjunct, over the modelled attribute set); when a registered name does
collide with a pre-existing attribute, construction raises `ValueError`
telling the caller to pick a different name even though no registry duplicate
exists (second conjunct, at the concrete name `item_type`). -/
theorem c9_names_installed_as_attributes :
    (∀ (fuel : Nat) (g f : Bool) (cls : String) (pre : List Nat) (lits : List Lit)
      (n : Node) (tr : List Event) (cls2 : String) (ns : List (String × Node))
      (ch : List Node),
      populate (fuel + 1) g f cls pre lits = .ok (n, tr) →
      n = .layoutN cls2 ns ch →
      ∀ kv ∈ ns, kv.1 ≠ "" → (predefAttrs g).contains kv.1 = false) ∧
    populate 9 false false "AutoVBoxLayout" []
      [.dictL [("WIDGET", .widget .qLineEdit {}), ("name", .str "item_type")]] =
      .error (.attrExists "item_type") := by
  refine ⟨?_, rfl⟩
  intro fuel g f cls pre lits n tr cls2 ns ch h hn kv hm hne
  obtain ⟨items, st, _, _, hai, hlay, _⟩ := populate_ok_parts h
  rw [hlay] at hn
  cases hn
  exact attrInstall_ok_not_predef hai kv hm hne

/-- Witness for C9: a successful one-leaf build whose registered name `x`
avoids every pre-existing attribute. -/
theorem c9_names_installed_as_attributes_witness :
    (predefAttrs false).contains "x" = false :=
  c9_names_installed_as_attributes.1 8 false false "AutoVBoxLayout" []
    [.dictL [("WIDGET", .widget .qLineEdit {}), ("name", .str "x")]]
    (.layoutN "AutoVBoxLayout" [("x", c9Leaf)] [c9Leaf])
    [Event.resolvedAcc [0], Event.attached [0] c9Leaf]
    "AutoVBoxLayout" [("x", c9Leaf)] [c9Leaf]
    rfl rfl ("x", c9Leaf) (by simp) (by decide)

theorem run_nodup : ∀ (fuel : Nat) (req : Req) (out : Resp),
    run fuel req = .ok out → NodupInv req out := by
  intro fuel
  induction fuel with
  | zero => intro req out h; cases h
  | succ fuel ih =>
    intro req out h
    cases req with
    | pop g f cls pre lits =>
      rw [run] at h
      cases hp : parseAll g lits with
      | error e => simp only [hp] at h; cases e <;> simp at h
      | ok items =>
        simp only [hp] at h
        cases hr : run fuel (.items g f cls pre 0 items {}) with
        | error e => simp only [hr] at h; simp at h
        | ok r =>
          simp only [hr] at h
          cases r with
          | lay n2 tr2 => simp at h
          | bst st =>
            cases hai : attrInstall g st.names with
            | error e => simp only [hai] at h; simp at h
            | ok u =>
              cases u
              simp only [hai] at h
              cases h
              simp only [NodupInv]
              intro cls' ns ch hn
              cases hn
              have h1 := ih _ _ hr
              simp only [NodupInv] at h1
              exact h1 (by simp [keysOf])
    | items g f cls pre i its st =>
      cases its with
      | nil =>
        rw [run] at h
        cases h
        simp only [NodupInv]
        exact id
      | cons it rest =>
        rw [run] at h
        cases hv : (match ITEM_ATTRIBUTES it.type with
            | none => Except.ok ()
            | some schema => validate_item cls it schema) with
        | error e => simp only [hv] at h; simp at h
        | ok u =>
          cases u
          simp only [hv] at h
          cases hd : run fuel (.addD g f cls pre i it st) with
          | error e => simp only [hd] at h; simp at h
          | ok r =>
            simp only [hd] at h
            cases r with
            | lay n2 tr2 => simp at h
            | bst st2 =>
              cases out with
              | lay n3 tr3 => simp [NodupInv]
              | bst st' =>
                simp only [NodupInv]
                intro hn
                have h1 := ih _ _ hd
                have h2 := ih _ _ h
                simp only [NodupInv] at h1 h2
                exact h2 (h1 hn)
    | addD g f cls pre i it st =>
      rw [run] at h
      cases g with
      | false =>
        simp only [Bool.false_eq_true, if_false] at h
        cases out with
        | lay n3 tr3 =>
          have h1 := ih _ _ h
          simp only [NodupInv] at h1 ⊢
        | bst st' =>
          have h1 := ih _ _ h
          simp only [NodupInv] at h1 ⊢
          exact h1
      | true =>
        simp only [if_true] at h
        cases f with
        | false =>
          simp only [Bool.false_eq_true, if_false] at h
          cases hv : validate_item cls it ((ITEM_ATTRIBUTES "grid_element").getD []) with
          | error e => simp only [hv] at h; simp at h
          | ok u =>
            cases u
            simp only [hv] at h
            cases out with
            | lay n3 tr3 =>
              have h1 := ih _ _ h
              simp only [NodupInv] at h1 ⊢
            | bst st' =>
              have h1 := ih _ _ h
              simp only [NodupInv] at h1 ⊢
              exact h1
        | true =>
          simp only [if_true] at h
          cases hv : validate_item cls it ((ITEM_ATTRIBUTES "form_element").getD []) with
          | error e => simp only [hv] at h; simp at h
          | ok u =>
            cases u
            simp only [hv] at h
            cases hlb : it.label with
            | str s =>
              simp only [hlb, parseLit] at h
              cases hl : run fuel (.addC (pre ++ [2 * i + 1])
                  { isGrid := false, type := "widget",
                    item := .widget .qLabel { text := s } } st) with
              | error e => simp only [hl] at h; simp at h
              | ok r =>
                simp only [hl] at h
                cases r with
                | lay n2 tr2 => simp at h
                | bst st2 =>
                  cases out with
                  | lay n3 tr3 => simp [NodupInv]
                  | bst st' =>
                    simp only [NodupInv]
                    intro hn
                    have h1 := ih _ _ hl
                    have h2 := ih _ _ h
                    simp only [NodupInv] at h1 h2
                    exact h2 (h1 hn)
            | widget wk wst => simp only [hlb] at h; simp at h
            | lits ls => simp only [hlb] at h; simp at h
            | int m => simp only [hlb] at h; simp at h
            | cb t => simp only [hlb] at h; simp at h
            | noneV => simp only [hlb] at h; simp at h
    | addC p it st =>
      rw [run] at h
      by_cases h1 : it.type = "stretch"
      · rw [if_pos h1] at h
        cases h
        simp only [NodupInv]
        exact id
      · rw [if_neg h1] at h
        by_cases h2 : it.type = "widget"
        · rw [if_pos h2] at h
          cases hit : it.item with
          | widget wk wst =>
            simp only [hit] at h
            obtain ⟨st2, rfl, heq⟩ := finishAddR_bst h
            simp only [NodupInv]
            intro hn
            refine finishAdd_nodup ?_ heq
            exact hn
          | lits ls => simp only [hit] at h; simp at h
          | str s => simp only [hit] at h; simp at h
          | int m => simp only [hit] at h; simp at h
          | cb t => simp only [hit] at h; simp at h
          | noneV => simp only [hit] at h; simp at h
        · rw [if_neg h2] at h
          by_cases h3 : strContains it.type "layout" = true
          · rw [if_pos h3] at h
            cases hc : layoutCtor it.type with
            | some cfg =>
              obtain ⟨g2, f2, cls2⟩ := cfg
              simp only [hc] at h
              cases hit : it.item with
              | lits ls =>
                simp only [hit] at h
                cases hn2 : run fuel (.pop g2 f2 cls2 p ls) with
                | error e => simp only [hn2] at h; simp at h
                | ok r =>
                  simp only [hn2] at h
                  cases r with
                  | bst st2 => simp at h
                  | lay n2 tr2 =>
                    obtain ⟨st2, rfl, heq⟩ := finishAddR_bst h
                    simp only [NodupInv]
                    intro hn
                    refine finishAdd_nodup ?_ heq
                    exact hn
              | widget wk wst => simp only [hit] at h; simp at h
              | str s => simp only [hit] at h; simp at h
              | int m => simp only [hit] at h; simp at h
              | cb t => simp only [hit] at h; simp at h
              | noneV => simp only [hit] at h; simp at h
            | none =>
              simp only [hc] at h
              obtain ⟨st2, rfl, heq⟩ := finishAddR_bst h
              simp only [NodupInv]
              intro hn
              refine finishAdd_nodup ?_ heq
              exact hn
          · rw [if_neg h3] at h
            obtain ⟨st2, rfl, heq⟩ := finishAddR_bst h
            simp only [NodupInv]
            intro hn
            refine finishAdd_nodup ?_ heq
            exact hn

/-- C1: registry names are globally unique in every composed tree.
(1) during any merge, a truthy incoming key already present in the enclosing
registry raises `DuplicateNameError` naming that key; (2) every successfully
built layout (nested ones included, since they are built by the same
recursion) has duplicate-free registry keys; (3) a sibling name colliding
with a name spliced out of a nested composite aborts the whole build with
`DuplicateNameError` (spec scenario D); (4) a duplicate arising inside a
nested composite propagates through the enclosing composite's construction,
so no partially built composite is returned. -/
theorem c1_registry_unique_duplicate_error :
    (∀ (names : List (String × Node)) (k : String) (v : Node)
      (rest : List (String × Node)),
      k ≠ "" → (keysOf names).contains k = true →
        addNames names ((k, v) :: rest) = .error (.duplicateName k)) ∧
    (∀ (fuel : Nat) (g f : Bool) (cls : String) (pre : List Nat) (lits : List Lit)
      (n : Node) (tr : List Event) (cls2 : String) (ns : List (String × Node))
      (ch : List Node),
      populate fuel g f cls pre lits = .ok (n, tr) →
      n = .layoutN cls2 ns ch → (keysOf ns).Nodup) ∧
    populate 9 false false "AutoVBoxLayout" []
      [.dictL [("WIDGET", .widget .qLineEdit {}), ("name", .str "a")],
       .dictL [("VBOXLAYOUT",
         .lits [.dictL [("WIDGET", .widget .qLineEdit {}), ("name", .str "a")]])]] =
      .error (.duplicateName "a") ∧
    populate 9 false false "AutoVBoxLayout" []
      [.dictL [("VBOXLAYOUT",
        .lits [.dictL [("WIDGET", .widget .qLineEdit {}), ("name", .str "a")],
               .dictL [("WIDGET", .widget .qLineEdit {}), ("name", .str "a")]])]] =
      .error (.duplicateName "a") := by
  refine ⟨?_, ?_, rfl, rfl⟩
  · intro names k v rest hk hc
    simp only [keysOf] at hc
    have hm : k ∈ List.map Prod.fst names := by simpa using hc
    simp [addNames, hk, hm]
  · intro fuel g f cls pre lits n tr cls2 ns ch h hn
    cases fuel with
    | zero => simp [populate, run] at h
    | succ fuel =>
      obtain ⟨items, st, _, hr, _, hlay, _⟩ := populate_ok_parts h
      rw [hlay] at hn
      cases hn
      have h1 := run_nodup _ _ _ hr
      simp only [NodupInv] at h1
      exact h1 (by simp [keysOf])

/-- Witness for C1: a concrete colliding merge raises `DuplicateNameError`,
and a concrete successful one-leaf build has duplicate-free registry keys. -/
theorem c1_registry_unique_duplicate_error_witness :
    addNames [("a", Node.stretchN)] (("a", Node.stretchN) :: []) =
      .error (.duplicateName "a") ∧
    (keysOf [("x", Node.leafN .qLineEdit {} (some .tableR) (some .tableR)
      (some .tableR))]).Nodup := by
  constructor
  · exact c1_registry_unique_duplicate_error.1 [("a", .stretchN)] "a" .stretchN []
      (by decide) (by decide)
  · exact c1_registry_unique_duplicate_error.2.1 9 false false "AutoVBoxLayout" []
      [.dictL [("WIDGET", .widget .qLineEdit {}), ("name", .str "x")]]
      (.layoutN "AutoVBoxLayout"
        [("x", .leafN .qLineEdit {} (some .tableR) (some .tableR) (some .tableR))]
        [.leafN .qLineEdit {} (some .tableR) (some .tableR) (some .tableR)])
      [Event.resolvedAcc [0],
       Event.attached [0] (.leafN .qLineEdit {} (some .tableR) (some .tableR) (some .tableR))]
      "AutoVBoxLayout"
      [("x", .leafN .qLineEdit {} (some .tableR) (some .tableR) (some .tableR))]
      [.leafN .qLineEdit {} (some .tableR) (some .tableR) (some .tableR)]
      rfl rfl

theorem findText_mem {items : List String} {s : String} (h : s ∈ items) :
    ∃ n : Nat, List.findIdx? (fun t => t == s) items = some n ∧ items.getD n "" = s := by
  induction items with
  | nil => cases h
  | cons a rest ih =>
    by_cases ha : a = s
    · exact ⟨0, by simp [List.findIdx?_cons, ha], by simp [ha]⟩
    · have hmem : s ∈ rest := by
        rcases List.mem_cons.mp h with he | hm
        · exact absurd he.symm ha
        · exact hm
      obtain ⟨n, hn, hg⟩ := ih hmem
      refine ⟨n + 1, ?_, by simpa using hg⟩
      have hb : (a == s) = false := beq_eq_false_iff_ne.mpr ha
      simp [List.findIdx?_cons, hb, hn]

theorem keysOf_replaceEntry (reg : List (String × Node)) (k : String) (n : Node) :
    keysOf (replaceEntry reg k n) = keysOf reg := by
  induction reg with
  | nil => rfl
  | cons kv rest ih =>
    rw [replaceEntry]
    by_cases he : kv.1 = k
    · rw [if_pos he]; simp [keysOf, he]
    · rw [if_neg he]
      simp only [keysOf, List.map_cons]
      simpa [keysOf] using ih

theorem lookup_replaceEntry {reg : List (String × Node)} {name : String}
    {n0 n' : Node} (h : reg.find? (fun e => e.1 == name) = some (name, n0)) :
    (replaceEntry reg name n').lookup name = some n' := by
  induction reg with
  | nil => simp [List.find?] at h
  | cons kv rest ih =>
    by_cases he : kv.1 = name
    · rw [replaceEntry, if_pos he]
      simp [List.lookup]
    · have hb : (kv.1 == name) = false := beq_eq_false_iff_ne.mpr he
      rw [replaceEntry, if_neg he]
      have hb2 : (name == kv.1) = false :=
        beq_eq_false_iff_ne.mpr (fun x => he x.symm)
      simp only [List.lookup, hb2]
      refine ih ?_
      rw [List.find?_cons] at h
      simpa [hb] using h

/-- Per-entry round trip through the default accessor table: for every table
type other than `QListWidget` and every value in the valid domain, the table
setter succeeds and the table getter then reads the value back. -/
theorem table_roundtrip {wk : WidgetKind} {st : WidgetState} {v : Val}
    (hwk : wk ≠ .qListWidget) (hv : validDomain wk st v) :
    ∃ e fs fg st', PROPERTIES wk = some e ∧ e.set = some fs ∧ e.get = some fg ∧
      fs v st = .ok st' ∧ fg st' = v := by
  cases wk with
  | qLabel =>
    obtain ⟨s, rfl⟩ := hv
    exact ⟨_, _, _, _, rfl, rfl, rfl, rfl, rfl⟩
  | qLineEdit =>
    obtain ⟨s, rfl⟩ := hv
    exact ⟨_, _, _, _, rfl, rfl, rfl, rfl, rfl⟩
  | qPlainTextEdit =>
    obtain ⟨s, rfl⟩ := hv
    exact ⟨_, _, _, _, rfl, rfl, rfl, rfl, rfl⟩
  | qRadioButton =>
    obtain ⟨b, rfl⟩ := hv
    exact ⟨_, _, _, _, rfl, rfl, rfl, rfl, by cases b <;> rfl⟩
  | qCheckBox =>
    obtain ⟨b, rfl⟩ := hv
    exact ⟨_, _, _, _, rfl, rfl, rfl, rfl, by cases b <;> rfl⟩
  | qComboBox =>
    obtain ⟨s, rfl, hs⟩ := hv
    obtain ⟨n, hn, hg⟩ := findText_mem hs
    refine ⟨_, _, _, _, rfl, rfl, rfl, rfl, ?_⟩
    simp only [comboCurrentText, findText, hn]
    simpa [List.getD, List.get?_eq_getElem?] using hg
  | qListWidget => exact absurd rfl hwk
  | qSpinBox =>
    obtain ⟨m, rfl, h1, h2⟩ := hv
    refine ⟨_, _, _, _, rfl, rfl, rfl, rfl, ?_⟩
    simp only [clampInt]
    congr 1
    omega
  | qDoubleSpinBox =>
    obtain ⟨q, rfl, h1, h2⟩ := hv
    refine ⟨_, _, _, _, rfl, rfl, rfl, rfl, ?_⟩
    simp only [clampRat]
    congr 1
    rw [min_eq_right h2, max_eq_right h1]
  | qPushButton => cases hv
  | otherW nm => cases hv

/-- C3 amended: for a registered leaf whose accessors resolved from the
default accessor table, `set_` followed by `get_` round-trips every value of
the leaf's valid domain — for every table type EXCEPT `QListWidget` (see the
counterexample: its table getter returns the current `QListWidgetItem`
object, not the text its setter was given). -/
theorem c3_roundtrip_amended :
    ∀ (reg : List (String × Node)) (name : String) (wk : WidgetKind)
      (st : WidgetState) (c : Option Resolved) (v : Val),
      (keysOf reg).Nodup →
      reg.find? (fun e => e.1 == name) =
        some (name, .leafN wk st (some .tableR) (some .tableR) c) →
      wk ≠ .qListWidget →
      validDomain wk st v →
      ∃ reg', setAll reg [(name, v)] = .ok reg' ∧
        (getAll reg').lookup name = some v := by
  intro reg name wk st c v hnd hfind hwk hv
  obtain ⟨e, fs, fg, st', he, hset, hget, hfs, hfg⟩ := table_roundtrip hwk hv
  have hns : nodeSet (.leafN wk st (some .tableR) (some .tableR) c) v =
      .ok (.leafN wk st' (some .tableR) (some .tableR) c) := by
    simp [nodeSet, he, hset, hfs]
  refine ⟨replaceEntry reg name (.leafN wk st' (some .tableR) (some .tableR) c), ?_, ?_⟩
  · simp [setAll, List.foldlM, setOne, hfind, hns]
  · rw [getAll_lookup (by rw [keysOf_replaceEntry]; exact hnd)]
    rw [lookup_replaceEntry hfind]
    simp [nodeGetVal, interpGet, he, hget, hfg]

/-- C3 counterexample: a successfully built composite holding a named
`QListWidget` (a type present in the default accessor table) does NOT
round-trip: after `set_(x="foo")`, `get_()["x"]` is the current
`QListWidgetItem` object (whose text is `"foo"`), not the string `"foo"`. -/
theorem c3_counterexample_listwidget_roundtrip :
    populate 9 false false "AutoVBoxLayout" []
      [.dictL [("WIDGET", .widget .qListWidget { items := ["foo"] }),
               ("name", .str "x")]] =
      .ok (.layoutN "AutoVBoxLayout" [("x", c3ListLeaf)] [c3ListLeaf],
        [Event.resolvedAcc [0], Event.attached [0] c3ListLeaf]) ∧
    setAll [("x", c3ListLeaf)] [("x", .vStr "foo")] = .ok [("x", c3ListLeafSet)] ∧
    (getAll [("x", c3ListLeafSet)]).lookup "x" = some (.vListItem "foo") ∧
    Val.vListItem "foo" ≠ Val.vStr "foo" :=
  ⟨rfl, rfl, rfl, by simp⟩

/-- Witness for C3 amended at a concrete `QLineEdit`. -/
theorem c3_roundtrip_amended_witness :
    ∃ reg', setAll
        [("y", Node.leafN .qLineEdit {} (some .tableR) (some .tableR) (some .tableR))]
        [("y", .vStr "hello")] = .ok reg' ∧
      (getAll reg').lookup "y" = some (.vStr "hello") :=
  c3_roundtrip_amended
    [("y", .leafN .qLineEdit {} (some .tableR) (some .tableR) (some .tableR))]
    "y" .qLineEdit {} (some .tableR) (.vStr "hello")
    (by decide) rfl (by decide) ⟨"hello", rfl⟩

theorem filterP_append (a b : List Event) (p : List Nat) :
    filterP (a ++ b) p = filterP a p ++ filterP b p := by
  simp [filterP]

theorem filterP_eq_self {l : List Event} {p : List Nat}
    (h : ∀ e ∈ l, pathOf e = p) : filterP l p = l :=
  List.filter_eq_self.mpr (fun e he => by simp [h e he])

theorem filterP_eq_nil {l : List Event} {q : List Nat}
    (h : ∀ e ∈ l, pathOf e ≠ q) : filterP l q = [] :=
  List.filter_eq_nil_iff.mpr (fun e he => by simp [h e he])

theorem filterP_ne_nil {l : List Event} {p : List Nat} (h : filterP l p ≠ []) :
    ∃ e ∈ l, pathOf e = p := by
  obtain ⟨e, he⟩ := List.exists_mem_of_ne_nil _ h
  have := List.mem_filter.mp he
  exact ⟨e, this.1, by simpa using this.2⟩

theorem shapeOK_nil : ShapeOK [] := fun _ => .inl rfl

theorem shapeOK_append {a b : List Event} (ha : ShapeOK a) (hb : ShapeOK b)
    (hdis : ∀ p, filterP a p = [] ∨ filterP b p = []) : ShapeOK (a ++ b) := by
  intro p
  rw [filterP_append]
  rcases hdis p with h | h
  · rw [h, List.nil_append]; exact hb p
  · rw [h, List.append_nil]; exact ha p

/-- A trace whose events all sit at a single path `p` and whose restriction to
`p` is shape-correct is shape-correct everywhere. -/
theorem shapeOK_of_single_path {l : List Event} {p : List Nat}
    (hall : ∀ e ∈ l, pathOf e = p) (hSh : ShapeAt l p) : ShapeOK l := by
  intro q
  by_cases h : p = q
  · subst h; rw [filterP_eq_self hall]; exact hSh
  · rw [filterP_eq_nil (fun e he => by rw [hall e he]; exact h)]
    exact .inl rfl

/-- A nested-construction trace (all paths strictly below `p`) followed by the
enclosing item's own events (all exactly at `p`). -/
theorem shapeOK_nested {trN tail : List Event} {p : List Nat}
    (hN : ∀ e ∈ trN, ∃ c rest, pathOf e = p ++ c :: rest)
    (hShN : ShapeOK trN)
    (htail : ∀ e ∈ tail, pathOf e = p) (hSh : ShapeAt tail p) :
    ShapeOK (trN ++ tail) := by
  intro q
  rw [filterP_append]
  by_cases h : p = q
  · subst h
    have h1 : filterP trN p = [] := by
      refine filterP_eq_nil (fun e he hpe => ?_)
      obtain ⟨c, rest, hc⟩ := hN e he
      rw [hpe] at hc
      have := congrArg List.length hc
      simp at this
    rw [h1, List.nil_append, filterP_eq_self htail]
    exact hSh
  · have h2 : filterP tail q = [] :=
      filterP_eq_nil (fun e he => by rw [htail e he]; exact h)
    rw [h2, List.append_nil]
    exact hShN q

theorem filter_disjoint_of_scoped {a b : List Event} {pre : List Nat} {i : Nat}
    (hA : ∀ e ∈ a, ∃ c rest, pathOf e = pre ++ c :: rest ∧ (c = 2 * i ∨ c = 2 * i + 1))
    (hB : ∀ e ∈ b, ∃ c rest, pathOf e = pre ++ c :: rest ∧ 2 * (i + 1) ≤ c) :
    ∀ p, filterP a p = [] ∨ filterP b p = [] := by
  intro p
  by_cases ha : filterP a p = []
  · exact .inl ha
  · right
    by_contra hbne
    obtain ⟨e, hea, hep⟩ := filterP_ne_nil ha
    obtain ⟨e', heb, hep'⟩ := filterP_ne_nil hbne
    obtain ⟨c, rest, hpath, hc⟩ := hA e hea
    obtain ⟨c', rest', hpath', hc'⟩ := hB e' heb
    rw [hep] at hpath
    rw [hep'] at hpath'
    have hcc : c :: rest = c' :: rest' :=
      List.append_cancel_left (hpath.symm.trans hpath')
    cases hcc
    omega

theorem filter_disjoint_of_head {a b : List Event} {pre : List Nat} {c1 c2 : Nat}
    (hne : c1 ≠ c2)
    (hA : ∀ e ∈ a, ∃ rest, pathOf e = (pre ++ [c1]) ++ rest)
    (hB : ∀ e ∈ b, ∃ rest, pathOf e = (pre ++ [c2]) ++ rest) :
    ∀ p, filterP a p = [] ∨ filterP b p = [] := by
  intro p
  by_cases ha : filterP a p = []
  · exact .inl ha
  · right
    by_contra hbne
    obtain ⟨e, hea, hep⟩ := filterP_ne_nil ha
    obtain ⟨e', heb, hep'⟩ := filterP_ne_nil hbne
    obtain ⟨rest, hpath⟩ := hA e hea
    obtain ⟨rest', hpath'⟩ := hB e' heb
    rw [hep] at hpath
    rw [hep'] at hpath'
    have heq2 : pre ++ (c1 :: rest) = pre ++ (c2 :: rest') := by
      simpa [List.append_assoc] using hpath.symm.trans hpath'
    have hcc : (c1 :: rest : List Nat) = c2 :: rest' :=
      List.append_cancel_left heq2
    injection hcc with h1 h2
    exact hne h1

theorem trinv_single {p : List Nat} {it : Item} {st st2 : BSt} {iv : Option Nat}
    (tail : List Event)
    (htr : st2.trace = st.trace ++ tail)
    (hall : ∀ e ∈ tail, pathOf e = p)
    (hSh : ShapeAt tail p)
    (hcompl : it.type ≠ "stretch" → ∀ t, iv = some t →
      ∃ a, Event.initCalled p t a ∈ tail) :
    ∃ delta, st2.trace = st.trace ++ delta ∧
      (∀ e ∈ delta, ∃ rest, pathOf e = p ++ rest) ∧ ShapeOK delta ∧
      (it.type ≠ "stretch" → ∀ t, iv = some t →
        ∃ a, Event.initCalled p t a ∈ delta) :=
  ⟨tail, htr, fun e he => ⟨[], by simp [hall e he]⟩,
   shapeOK_of_single_path hall hSh, hcompl⟩

theorem trinv_nested {p : List Nat} {it : Item} {st st2 : BSt} {iv : Option Nat}
    (trN tail : List Event)
    (htr : st2.trace = st.trace ++ (trN ++ tail))
    (hN : ∀ e ∈ trN, ∃ c rest, pathOf e = p ++ c :: rest)
    (hShN : ShapeOK trN)
    (hall : ∀ e ∈ tail, pathOf e = p)
    (hSh : ShapeAt tail p)
    (hcompl : it.type ≠ "stretch" → ∀ t, iv = some t →
      ∃ a, Event.initCalled p t a ∈ tail) :
    ∃ delta, st2.trace = st.trace ++ delta ∧
      (∀ e ∈ delta, ∃ rest, pathOf e = p ++ rest) ∧ ShapeOK delta ∧
      (it.type ≠ "stretch" → ∀ t, iv = some t →
        ∃ a, Event.initCalled p t a ∈ delta) := by
  refine ⟨trN ++ tail, htr, ?_, shapeOK_nested hN hShN hall hSh, ?_⟩
  · intro e he
    rcases List.mem_append.mp he with h | h
    · obtain ⟨c, rest, hc⟩ := hN e h
      exact ⟨c :: rest, hc⟩
    · exact ⟨[], by simp [hall e h]⟩
  · intro hne t ht
    obtain ⟨a, ha⟩ := hcompl hne t ht
    exact ⟨a, List.mem_append.mpr (.inr ha)⟩

theorem trinv_widget_tail {p : List Nat} {it : Item} {st st1 st2 : BSt} {nd : Node}
    (heq : finishAdd p it nd st1 = .ok st2)
    (htr1 : st1.trace = st.trace ++ [Event.resolvedAcc p, Event.attached p nd]) :
    ∃ delta, st2.trace = st.trace ++ delta ∧
      (∀ e ∈ delta, ∃ rest, pathOf e = p ++ rest) ∧ ShapeOK delta ∧
      (it.type ≠ "stretch" → ∀ t, it.init = some t →
        ∃ a, Event.initCalled p t a ∈ delta) := by
  have htr := finishAdd_trace heq
  cases hini : it.init with
  | none =>
    simp only [hini, List.append_nil] at htr
    refine trinv_single [Event.resolvedAcc p, Event.attached p nd] ?_ ?_ ?_ ?_
    · rw [htr, htr1]
    · intro e he; simp at he; rcases he with rfl | rfl <;> rfl
    · exact Or.inr (Or.inr (Or.inl ⟨nd, rfl⟩))
    · intro _ t ht; cases ht
  | some t0 =>
    simp only [hini] at htr
    refine trinv_single
      [Event.resolvedAcc p, Event.attached p nd, Event.initCalled p t0 nd] ?_ ?_ ?_ ?_
    · rw [htr, htr1]; simp
    · intro e he; simp at he; rcases he with rfl | rfl | rfl <;> rfl
    · exact Or.inr (Or.inr (Or.inr (Or.inr (Or.inr ⟨nd, t0, rfl⟩))))
    · intro _ t ht
      cases ht
      exact ⟨nd, by simp⟩

theorem trinv_attach_tail {p : List Nat} {it : Item} {st st1 st2 : BSt} {nd : Node}
    (heq : finishAdd p it nd st1 = .ok st2)
    (htr1 : st1.trace = st.trace ++ [Event.attached p nd]) :
    ∃ delta, st2.trace = st.trace ++ delta ∧
      (∀ e ∈ delta, ∃ rest, pathOf e = p ++ rest) ∧ ShapeOK delta ∧
      (it.type ≠ "stretch" → ∀ t, it.init = some t →
        ∃ a, Event.initCalled p t a ∈ delta) := by
  have htr := finishAdd_trace heq
  cases hini : it.init with
  | none =>
    simp only [hini, List.append_nil] at htr
    refine trinv_single [Event.attached p nd] ?_ ?_ ?_ ?_
    · rw [htr, htr1]
    · intro e he; simp at he; subst he; rfl
    · exact Or.inr (Or.inl ⟨nd, rfl⟩)
    · intro _ t ht; cases ht
  | some t0 =>
    simp only [hini] at htr
    refine trinv_single [Event.attached p nd, Event.initCalled p t0 nd] ?_ ?_ ?_ ?_
    · rw [htr, htr1]; simp
    · intro e he; simp at he; rcases he with rfl | rfl <;> rfl
    · exact Or.inr (Or.inr (Or.inr (Or.inr (Or.inl ⟨nd, t0, rfl⟩))))
    · intro _ t ht
      cases ht
      exact ⟨nd, by simp⟩

theorem trinv_noattach_tail {p : List Nat} {it : Item} {st st2 : BSt} {nd : Node}
    (heq : finishAdd p it nd st = .ok st2) :
    ∃ delta, st2.trace = st.trace ++ delta ∧
      (∀ e ∈ delta, ∃ rest, pathOf e = p ++ rest) ∧ ShapeOK delta ∧
      (it.type ≠ "stretch" → ∀ t, it.init = some t →
        ∃ a, Event.initCalled p t a ∈ delta) := by
  have htr := finishAdd_trace heq
  cases hini : it.init with
  | none =>
    simp only [hini, List.append_nil] at htr
    refine trinv_single [] (by simpa using htr) (by simp) (.inl rfl) ?_
    intro _ t ht; cases ht
  | some t0 =>
    simp only [hini] at htr
    refine trinv_single [Event.initCalled p t0 nd] htr ?_ ?_ ?_
    · intro e he; simp at he; subst he; rfl
    · exact Or.inr (Or.inr (Or.inr (Or.inl ⟨t0, nd, rfl⟩)))
    · intro _ t ht
      cases ht
      exact ⟨nd, by simp⟩

theorem trinv_layout_tail {p : List Nat} {it : Item} {st st1 st2 : BSt} {nd : Node}
    {trN : List Event}
    (heq : finishAdd p it nd st1 = .ok st2)
    (htr1 : st1.trace = st.trace ++ (trN ++ [Event.attached p nd]))
    (hN : ∀ e ∈ trN, ∃ c rest, pathOf e = p ++ c :: rest)
    (hShN : ShapeOK trN) :
    ∃ delta, st2.trace = st.trace ++ delta ∧
      (∀ e ∈ delta, ∃ rest, pathOf e = p ++ rest) ∧ ShapeOK delta ∧
      (it.type ≠ "stretch" → ∀ t, it.init = some t →
        ∃ a, Event.initCalled p t a ∈ delta) := by
  have htr := finishAdd_trace heq
  cases hini : it.init with
  | none =>
    simp only [hini, List.append_nil] at htr
    refine trinv_nested trN [Event.attached p nd] ?_ hN hShN ?_ ?_ ?_
    · rw [htr, htr1]
    · intro e he; simp at he; subst he; rfl
    · exact Or.inr (Or.inl ⟨nd, rfl⟩)
    · intro _ t ht; cases ht
  | some t0 =>
    simp only [hini] at htr
    refine trinv_nested trN [Event.attached p nd, Event.initCalled p t0 nd] ?_ hN hShN
      ?_ ?_ ?_
    · rw [htr, htr1]; simp
    · intro e he; simp at he; rcases he with rfl | rfl <;> rfl
    · exact Or.inr (Or.inr (Or.inr (Or.inr (Or.inl ⟨nd, t0, rfl⟩))))
    · intro _ t ht
      cases ht
      exact ⟨nd, by simp⟩

theorem addC_to_addD {pre : List Nat} {i : Nat} {it : Item} {st st' : BSt}
    (h : ∃ delta, st'.trace = st.trace ++ delta ∧
      (∀ e ∈ delta, ∃ rest, pathOf e = (pre ++ [2 * i]) ++ rest) ∧ ShapeOK delta ∧
      (it.type ≠ "stretch" → ∀ t, it.init = some t →
        ∃ a, Event.initCalled (pre ++ [2 * i]) t a ∈ delta)) :
    ∃ delta, st'.trace = st.trace ++ delta ∧
      (∀ e ∈ delta, ∃ c rest, pathOf e = pre ++ c :: rest ∧
        (c = 2 * i ∨ c = 2 * i + 1)) ∧
      ShapeOK delta ∧
      (it.type ≠ "stretch" → ∀ t, it.init = some t →
        ∃ a, Event.initCalled (pre ++ [2 * i]) t a ∈ delta) := by
  obtain ⟨delta, h1, h2, h3, h4⟩ := h
  refine ⟨delta, h1, ?_, h3, h4⟩
  intro e he
  obtain ⟨rest, hr⟩ := h2 e he
  exact ⟨2 * i, rest, by simpa [List.append_assoc] using hr, Or.inl rfl⟩

theorem run_trace : ∀ (fuel : Nat) (req : Req) (out : Resp),
    run fuel req = .ok out → TrInv req out := by
  intro fuel
  induction fuel with
  | zero => intro req out h; cases h
  | succ fuel ih =>
    intro req out h
    cases req with
    | pop g f cls pre lits =>
      rw [run] at h
      cases hp : parseAll g lits with
      | error e => simp only [hp] at h; cases e <;> simp at h
      | ok items =>
        simp only [hp] at h
        cases hr : run fuel (.items g f cls pre 0 items {}) with
        | error e => simp only [hr] at h; simp at h
        | ok r =>
          simp only [hr] at h
          cases r with
          | lay n2 tr2 => simp at h
          | bst st =>
            cases hai : attrInstall g st.names with
            | error e => simp only [hai] at h; simp at h
            | ok u =>
              cases u
              simp only [hai] at h
              cases h
              have h1 := ih _ _ hr
              simp only [TrInv] at h1
              obtain ⟨delta, hd1, hd2, hd3, hd4⟩ := h1
              simp only [TrInv]
              have hde : st.trace = delta := by simpa using hd1
              refine ⟨?_, ?_, ?_⟩
              · intro e he
                rw [hde] at he
                obtain ⟨c, rest, hc, _⟩ := hd2 e he
                exact ⟨c, rest, hc⟩
              · rw [hde]; exact hd3
              · intro its2 hits2 j it2 hj hne t ht
                rw [hp] at hits2
                cases hits2
                obtain ⟨a, ha⟩ := hd4 j it2 hj hne t ht
                exact ⟨a, by rw [hde]; simpa using ha⟩
    | items g f cls pre i its st =>
      cases its with
      | nil =>
        rw [run] at h
        cases h
        simp only [TrInv]
        exact ⟨[], by simp, by simp, shapeOK_nil, by simp⟩
      | cons it rest =>
        rw [run] at h
        cases hv : (match ITEM_ATTRIBUTES it.type with
            | none => Except.ok ()
            | some schema => validate_item cls it schema) with
        | error e => simp only [hv] at h; simp at h
        | ok u =>
          cases u
          simp only [hv] at h
          cases hd : run fuel (.addD g f cls pre i it st) with
          | error e => simp only [hd] at h; simp at h
          | ok r =>
            simp only [hd] at h
            cases r with
            | lay n2 tr2 => simp at h
            | bst st2 =>
              cases out with
              | lay n3 tr3 => simp [TrInv]
              | bst st' =>
                have h1 := ih _ _ hd
                have h2 := ih _ _ h
                simp only [TrInv] at h1 h2
                obtain ⟨d1, ha1, ha2, ha3, ha4⟩ := h1
                obtain ⟨d2, hb1, hb2, hb3, hb4⟩ := h2
                simp only [TrInv]
                refine ⟨d1 ++ d2, ?_, ?_, ?_, ?_⟩
                · rw [hb1, ha1, List.append_assoc]
                · intro e he
                  rcases List.mem_append.mp he with hm | hm
                  · obtain ⟨c, r2, hc, hor⟩ := ha2 e hm
                    exact ⟨c, r2, hc, by omega⟩
                  · obtain ⟨c, r2, hc, hle⟩ := hb2 e hm
                    exact ⟨c, r2, hc, by omega⟩
                · exact shapeOK_append ha3 hb3 (filter_disjoint_of_scoped ha2 hb2)
                · intro j it2 hj hne t ht
                  cases j with
                  | zero =>
                    simp only [List.getElem?_cons_zero] at hj
                    cases hj
                    obtain ⟨a, ha⟩ := ha4 hne t ht
                    exact ⟨a, List.mem_append.mpr (.inl ha)⟩
                  | succ j' =>
                    simp only [List.getElem?_cons_succ] at hj
                    obtain ⟨a, ha⟩ := hb4 j' it2 hj hne t ht
                    refine ⟨a, List.mem_append.mpr (.inr ?_)⟩
                    have harith : i + 1 + j' = i + (j' + 1) := by omega
                    rw [harith] at ha
                    exact ha
    | addD g f cls pre i it st =>
      rw [run] at h
      cases g with
      | false =>
        simp only [Bool.false_eq_true, if_false] at h
        cases out with
        | lay n3 tr3 => simp [TrInv]
        | bst st' =>
          have h1 := ih _ _ h
          simp only [TrInv] at h1 ⊢
          exact addC_to_addD h1
      | true =>
        simp only [if_true] at h
        cases f with
        | false =>
          simp only [Bool.false_eq_true, if_false] at h
          cases hv : validate_item cls it ((ITEM_ATTRIBUTES "grid_element").getD []) with
          | error e => simp only [hv] at h; simp at h
          | ok u =>
            cases u
            simp only [hv] at h
            cases out with
            | lay n3 tr3 => simp [TrInv]
            | bst st' =>
              have h1 := ih _ _ h
              simp only [TrInv] at h1 ⊢
              exact addC_to_addD h1
        | true =>
          simp only [if_true] at h
          cases hv : validate_item cls it ((ITEM_ATTRIBUTES "form_element").getD []) with
          | error e => simp only [hv] at h; simp at h
          | ok u =>
            cases u
            simp only [hv] at h
            cases hlb : it.label with
            | str s =>
              simp only [hlb, parseLit] at h
              cases hl : run fuel (.addC (pre ++ [2 * i + 1])
                  { isGrid := false, type := "widget",
                    item := .widget .qLabel { text := s } } st) with
              | error e => simp only [hl] at h; simp at h
              | ok r =>
                simp only [hl] at h
                cases r with
                | lay n2 tr2 => simp at h
                | bst st2 =>
                  cases out with
                  | lay n3 tr3 => simp [TrInv]
                  | bst st' =>
                    have h1 := ih _ _ hl
                    have h2 := ih _ _ h
                    simp only [TrInv] at h1 h2
                    obtain ⟨dL, ha1, ha2, ha3, ha4⟩ := h1
                    obtain ⟨dI, hb1, hb2, hb3, hb4⟩ := h2
                    simp only [TrInv]
                    refine ⟨dL ++ dI, ?_, ?_, ?_, ?_⟩
                    · rw [hb1, ha1, List.append_assoc]
                    · intro e he
                      rcases List.mem_append.mp he with hm | hm
                      · obtain ⟨r2, hr2⟩ := ha2 e hm
                        exact ⟨2 * i + 1, r2,
                          by simpa [List.append_assoc] using hr2, Or.inr rfl⟩
                      · obtain ⟨r2, hr2⟩ := hb2 e hm
                        exact ⟨2 * i, r2,
                          by simpa [List.append_assoc] using hr2, Or.inl rfl⟩
                    · exact shapeOK_append ha3 hb3
                        (filter_disjoint_of_head (by omega) ha2 hb2)
                    · intro hne t ht
                      obtain ⟨a, ha⟩ := hb4 hne t ht
                      exact ⟨a, List.mem_append.mpr (.inr ha)⟩
            | widget wk wst => simp only [hlb] at h; simp at h
            | lits ls => simp only [hlb] at h; simp at h
            | int m => simp only [hlb] at h; simp at h
            | cb t => simp only [hlb] at h; simp at h
            | noneV => simp only [hlb] at h; simp at h
    | addC p it st =>
      rw [run] at h
      by_cases h1 : it.type = "stretch"
      · rw [if_pos h1] at h
        cases h
        simp only [TrInv]
        exact ⟨[Event.attached p .stretchN], rfl,
          fun e he => ⟨[], by simp at he; subst he; simp [pathOf]⟩,
          shapeOK_of_single_path (fun e he => by simp at he; subst he; rfl)
            (Or.inr (Or.inl ⟨.stretchN, rfl⟩)),
          fun hne => absurd h1 hne⟩
      · rw [if_neg h1] at h
        by_cases h2 : it.type = "widget"
        · rw [if_pos h2] at h
          cases hit : it.item with
          | widget wk wst =>
            simp only [hit] at h
            obtain ⟨st2, rfl, heq⟩ := finishAddR_bst h
            simp only [TrInv]
            exact trinv_widget_tail heq rfl
          | lits ls => simp only [hit] at h; simp at h
          | str s => simp only [hit] at h; simp at h
          | int m => simp only [hit] at h; simp at h
          | cb t => simp only [hit] at h; simp at h
          | noneV => simp only [hit] at h; simp at h
        · rw [if_neg h2] at h
          by_cases h3 : strContains it.type "layout" = true
          · rw [if_pos h3] at h
            cases hc : layoutCtor it.type with
            | some cfg =>
              obtain ⟨g2, f2, cls2⟩ := cfg
              simp only [hc] at h
              cases hit : it.item with
              | lits ls =>
                simp only [hit] at h
                cases hn2 : run fuel (.pop g2 f2 cls2 p ls) with
                | error e => simp only [hn2] at h; simp at h
                | ok r =>
                  simp only [hn2] at h
                  cases r with
                  | bst st2 => simp at h
                  | lay n2 tr2 =>
                    obtain ⟨st2, rfl, heq⟩ := finishAddR_bst h
                    have hpop := ih _ _ hn2
                    simp only [TrInv] at hpop
                    simp only [TrInv]
                    exact trinv_layout_tail heq (by simp) hpop.1 hpop.2.1
              | widget wk wst => simp only [hit] at h; simp at h
              | str s => simp only [hit] at h; simp at h
              | int m => simp only [hit] at h; simp at h
              | cb t => simp only [hit] at h; simp at h
              | noneV => simp only [hit] at h; simp at h
            | none =>
              simp only [hc] at h
              obtain ⟨st2, rfl, heq⟩ := finishAddR_bst h
              simp only [TrInv]
              exact trinv_attach_tail heq rfl
          · rw [if_neg h3] at h
            obtain ⟨st2, rfl, heq⟩ := finishAddR_bst h
            simp only [TrInv]
            exact trinv_noattach_tail heq

theorem populate_run {fuel : Nat} {g f : Bool} {cls : String} {pre : List Nat}
    {lits : List Lit} {n : Node} {tr : List Event}
    (h : populate fuel g f cls pre lits = .ok (n, tr)) :
    run fuel (.pop g f cls pre lits) = .ok (.lay n tr) := by
  unfold populate at h
  split at h
  · rename_i heq
    simp only [Except.ok.injEq, Prod.mk.injEq] at h
    rw [heq, h.1, h.2]
  · cases h
  · cases h

/-- C6 counterexample: a literal of the unrecognized kind `FOO` carrying an
`init` callback builds successfully, its `init` IS consumed (invoked, on the
unattached raw payload), yet no attachment of that payload ever happens — the
composite has no children and the trace holds no attach event — so the `init`
invocation is not "after the payload has been attached" as the claim
states. -/
theorem c6_counterexample_init_without_attach :
    populate 9 false false "AutoVBoxLayout" []
      [.dictL [("FOO", .widget .qPushButton {}), ("init", .cb 0)]] =
      .ok (.layoutN "AutoVBoxLayout" [] [],
        [Event.initCalled [0] 0 (.rawN (.widget .qPushButton {}))]) ∧
    List.any [Event.initCalled [0] 0 (Node.rawN (.widget .qPushButton {}))]
      isAttachEvent = false :=
  ⟨rfl, rfl⟩

/-- C6 amended: in every successful build, (1) each consumed `init` callback
appears exactly once in the construction trace at its item's path, as the
LAST event there, preceded — whenever the payload is attached — by the
attachment (and by accessor resolution when the item is a widget), with the
attached payload itself as the `init` argument; items of unrecognized kinds
have their `init` invoked with no attachment at all (empty `front`).
(2) Every parsed non-stretch item carrying an `init` has its callback
invoked. -/
theorem c6_init_order_amended :
    (∀ (fuel : Nat) (g f : Bool) (cls : String) (pre : List Nat) (lits : List Lit)
      (n : Node) (tr : List Event) (p : List Nat) (t : Nat) (a : Node),
      populate fuel g f cls pre lits = .ok (n, tr) →
      Event.initCalled p t a ∈ tr →
      ∃ front, filterP tr p = front ++ [Event.initCalled p t a] ∧
        (front = [] ∨ front = [Event.attached p a] ∨
          front = [Event.resolvedAcc p, Event.attached p a])) ∧
    (∀ (fuel : Nat) (g f : Bool) (cls : String) (pre : List Nat) (lits : List Lit)
      (n : Node) (tr : List Event) (its : List Item) (j : Nat) (it2 : Item) (t : Nat),
      populate fuel g f cls pre lits = .ok (n, tr) →
      parseAll g lits = .ok its → its[j]? = some it2 →
      it2.type ≠ "stretch" → it2.init = some t →
      ∃ a, Event.initCalled (pre ++ [2 * j]) t a ∈ tr) := by
  constructor
  · intro fuel g f cls pre lits n tr p t a h hmem
    have hT := run_trace _ _ _ (populate_run h)
    simp only [TrInv] at hT
    have hsh := hT.2.1 p
    have hmf : Event.initCalled p t a ∈ filterP tr p := by
      simp [filterP, List.mem_filter, hmem, pathOf]
    rcases hsh with h0 | ⟨n0, h0⟩ | ⟨n0, h0⟩ | ⟨t0, a0, h0⟩ | ⟨n0, t0, h0⟩ | ⟨n0, t0, h0⟩ <;>
      rw [h0] at hmf
    · cases hmf
    · simp at hmf
    · simp at hmf
    · simp at hmf
      obtain ⟨ht0, ha0⟩ := hmf
      subst ht0; subst ha0
      exact ⟨[], h0, .inl rfl⟩
    · simp at hmf
      obtain ⟨ht0, ha0⟩ := hmf
      subst ht0; subst ha0
      exact ⟨[Event.attached p a], h0, .inr (.inl rfl)⟩
    · simp at hmf
      obtain ⟨ht0, ha0⟩ := hmf
      subst ht0; subst ha0
      exact ⟨[Event.resolvedAcc p, Event.attached p a], h0, .inr (.inr rfl)⟩
  · intro fuel g f cls pre lits n tr its j it2 t h hits hj hne ht
    have hT := run_trace _ _ _ (populate_run h)
    simp only [TrInv] at hT
    exact hT.2.2 its hits j it2 hj hne t ht

/-- Witness for C6 amended at a concrete build: a line edit carrying an
`init` callback; its invocation is last at its path, after resolution and
attachment, and it does fire. -/
theorem c6_init_order_amended_witness :
    (∃ front, filterP c6Trace [0] = front ++ [Event.initCalled [0] 7 c6Leaf] ∧
      (front = [] ∨ front = [Event.attached [0] c6Leaf] ∨
        front = [Event.resolvedAcc [0], Event.attached [0] c6Leaf])) ∧
    (∃ a, Event.initCalled [0] 7 a ∈ c6Trace) := by
  constructor
  · exact c6_init_order_amended.1 9 false false "AutoVBoxLayout" [] c6Lits
      (.layoutN "AutoVBoxLayout" [] [c6Leaf]) c6Trace [0] 7 c6Leaf rfl
      (by simp [c6Trace])
  · exact c6_init_order_amended.2 9 false false "AutoVBoxLayout" [] c6Lits
      (.layoutN "AutoVBoxLayout" [] [c6Leaf]) c6Trace [c6ItemParsed] 0 c6ItemParsed 7
      rfl rfl rfl (by decide) rfl
